import Mathlib

/-!
Verification development for the typconv Garmin TYP codec.

The Go sources are modelled shallowly:

* bytes are `Nat` values (with `% 256` / `&&& 0xFF` casts written out where
  the Go code relies on integer-width truncation);
* byte buffers are `List Nat`, read with `List.getD buf i 0` (Go's `ReadAt`
  zero-fills the part of a caller buffer past the end of file, and every
  in-bounds access simply indexes);
* fallible Go functions returning `(value, error)` become `Except String value`;
* Go `int` counters that may go negative (the label-length counter) are `Int`.

Each definition carries a comment naming the Go function it embeds.
-/

namespace TypConv

/-! ## Generic bit-arithmetic bridge lemmas

The Go code uses shifts and masks on `uint16`/`uint32`; the proofs below
translate those to `/`, `%` and `*` so that `omega` can finish.
-/

/-- Or of a shifted value with a value that fits entirely below the shift
is plain addition (the two operands occupy disjoint bit ranges). -/
theorem lor_mul_pow_eq_add (k : Nat) : ∀ y b : Nat, b < 2 ^ k →
    (y * 2 ^ k) ||| b = y * 2 ^ k + b := by
  induction k with
  | zero =>
    intro y b hb
    have hb0 : b = 0 := by simpa using hb
    subst hb0
    simp
  | succ k ih =>
    intro y b hb
    have ha : y * 2 ^ (k + 1) = y * 2 ^ k * 2 := by
      rw [Nat.pow_succ, Nat.mul_assoc]
    have heven : y * 2 ^ (k + 1) % 2 = 0 := by
      rw [ha]
      omega
    have hdiv : (y * 2 ^ (k + 1) ||| b) / 2 = (y * 2 ^ k) ||| (b / 2) := by
      rw [Nat.or_div_two, ha, Nat.mul_div_cancel _ (by norm_num : (0:Nat) < 2)]
    have hb2 : b / 2 < 2 ^ k := by
      rw [Nat.pow_succ] at hb
      omega
    have hmod : (y * 2 ^ (k + 1) ||| b) % 2 = b % 2 := by
      rcases Nat.mod_two_eq_zero_or_one b with hb0 | hb1
      · rcases Nat.mod_two_eq_zero_or_one (y * 2 ^ (k + 1) ||| b) with h | h
        · omega
        · rcases Nat.or_mod_two_eq_one.mp h with h1 | h1 <;> omega
      · have h := (@Nat.or_mod_two_eq_one (y * 2 ^ (k + 1)) b).mpr (Or.inr hb1)
        omega
    have hsplit : y * 2 ^ (k + 1) ||| b = 2 * ((y * 2 ^ k) ||| (b / 2)) + b % 2 := by
      rw [← hdiv, ← hmod]
      exact (Nat.div_add_mod _ 2).symm
    rw [hsplit, ih y (b / 2) hb2, ha]
    omega

/-- Masking with a contiguous run of set bits `(2^n - 1) * 2^k`
(covering bit positions `k … k+n-1`) extracts that bit window. -/
theorem and_bit_window (z k n : Nat) :
    z &&& (2 ^ n - 1) * 2 ^ k = z / 2 ^ k % 2 ^ n * 2 ^ k := by
  have hr : z / 2 ^ k % 2 ^ n * 2 ^ k = ((z >>> k) % 2 ^ n) <<< k := by
    rw [Nat.shiftRight_eq_div_pow, Nat.shiftLeft_eq]
  have hm : (2 ^ n - 1) * 2 ^ k = (2 ^ n - 1) <<< k := by
    rw [Nat.shiftLeft_eq]
  rw [hr, hm]
  apply Nat.eq_of_testBit_eq
  intro j
  by_cases hjk : k ≤ j
  · have hj : k + (j - k) = j := by omega
    simp [Nat.testBit_and, Nat.testBit_shiftLeft, Nat.testBit_shiftRight,
      Nat.testBit_mod_two_pow, Nat.testBit_two_pow_sub_one, hjk, hj]
    cases z.testBit j <;> simp [Bool.and_comm]
  · simp [Nat.testBit_and, Nat.testBit_shiftLeft, hjk]

/-- Special case of `and_bit_window`: masking with `2^n - 1` is `% 2^n`. -/
theorem and_mask_eq_mod (z n : Nat) : z &&& (2 ^ n - 1) = z % 2 ^ n := by
  have := and_bit_window z 0 n
  simpa using this

/-- Oring a single power of two into a number that already has that bit set
is the identity. -/
theorem lor_two_pow_of_bit_set {x i : Nat} (h : x / 2 ^ i % 2 = 1) :
    2 ^ i ||| x = x := by
  have hbit : x.testBit i = true := by
    rw [Nat.testBit_to_div_mod]
    simpa using h
  apply Nat.eq_of_testBit_eq
  intro j
  by_cases hij : i = j
  · subst hij
    simp [Nat.testBit_or, hbit]
  · simp [Nat.testBit_or, Nat.testBit_two_pow, hij]

/-! ## Type/subtype bit codec (C4 in the spec)

`decodeTypeSubtype` embeds `Reader.decodeTypeSubtype`
(src/internal/binary/reader.go, lines 427-443);
`encodeTypeSubtype` embeds `Writer.encodeTypeSubtype`
(src/unnamed/part_005, lines 310-336).
All intermediate `uint16` arithmetic is written with explicit `% 65536`
where the Go expression could exceed 16 bits.
-/

/-- Decoder for the bit-packed 16-bit type/subtype field, returning
`(typ, subtyp)` exactly as the Go method does. -/
def decodeTypeSubtype (t16 : Nat) : Nat × Nat :=
  let t16_2 := ((t16 >>> 5) ||| ((t16 &&& 0x1f) <<< 11)) % 65536
  let typ0 := t16_2 &&& 0x7FF
  let subtyp := t16 &&& 0x01F
  let typ :=
    if t16 &&& 0x2000 ≠ 0 then 0x10000 ||| (typ0 <<< 8) ||| subtyp
    else (typ0 <<< 8) + subtyp
  (typ, subtyp)

/-- Encoder for the bit-packed 16-bit type/subtype field.  Note that, as in
the Go source, the `subtyp` parameter is immediately shadowed by
`typ &&& 0xFF` in both branches and therefore never read. -/
def encodeTypeSubtype (typ subtyp : Nat) : Nat :=
  if typ ≥ 0x10000 then
    let subtyp := typ &&& 0xFF
    let typ := (typ >>> 8) &&& 0x7FF
    let t16_2 := ((typ % 65536) &&& 0x7FF) ||| (((subtyp % 65536) <<< 11) % 65536)
    (0x2000 ||| (((t16_2 <<< 5) % 65536) &&& 0xFFE0)) ||| ((t16_2 >>> 11) &&& 0x001F)
  else
    let subtyp := typ &&& 0xFF
    let typ := typ >>> 8
    let t16_2 := ((typ % 65536) &&& 0x7FF) ||| (((subtyp % 65536) <<< 11) % 65536)
    ((((t16_2 <<< 5) % 65536) &&& 0xFFE0)) ||| ((t16_2 >>> 11) &&& 0x001F)

/-- Arithmetic form of the decoder: for any 16-bit word `w` the decoded
pair is `(w/32 * 256 + w%32, w%32)`.  (When bit 13 of `w` is set, the
`0x10000` bit that the Go code ors in is already present in
`typ0 <<< 8`, because bit 8 of `typ0` equals bit 13 of `w`; the or is
absorbed.) -/
theorem decodeTypeSubtype_arith (w : Nat) (hw : w < 65536) :
    decodeTypeSubtype w = (w / 32 * 256 + w % 32, w % 32) := by
  have h5 : w >>> 5 = w / 32 := by
    rw [Nat.shiftRight_eq_div_pow]
  have hm5 : w &&& 0x1f = w % 32 := by
    have h := and_mask_eq_mod w 5
    norm_num at h
    exact h
  have hsh : (w % 32) <<< 11 = w % 32 * 2048 := by
    rw [Nat.shiftLeft_eq]
  have hlor : (w / 32) ||| (w % 32 * 2048) = w % 32 * 2048 + w / 32 := by
    rw [Nat.lor_comm]
    have h := lor_mul_pow_eq_add 11 (w % 32) (w / 32) (by omega)
    norm_num at h
    exact h
  have ht : ((w >>> 5) ||| ((w &&& 0x1f) <<< 11)) % 65536 = w % 32 * 2048 + w / 32 := by
    rw [h5, hm5, hsh, hlor]
    omega
  have htyp0 : (w % 32 * 2048 + w / 32) &&& 0x7FF = w / 32 := by
    have h := and_mask_eq_mod (w % 32 * 2048 + w / 32) 11
    norm_num at h
    rw [h]
    omega
  have h13 := and_bit_window w 13 1
  norm_num at h13
  have hsh8 : (w / 32) <<< 8 = w / 32 * 256 := by
    rw [Nat.shiftLeft_eq]
  simp only [decodeTypeSubtype]
  rw [ht, htyp0, hm5, hsh8]
  by_cases hbit : w &&& 0x2000 ≠ 0
  · rw [if_pos hbit]
    have hb : w / 8192 % 2 = 1 := by
      norm_num at hbit
      rw [h13] at hbit
      omega
    have habs : 0x10000 ||| (w / 32 * 256) = w / 32 * 256 := by
      have hd : w / 32 * 256 / 2 ^ 16 % 2 = 1 := by
        have e0 : (2:Nat) ^ 16 = 256 * 256 := by norm_num
        rw [e0, ← Nat.div_div_eq_div_mul, Nat.mul_div_cancel _ (by norm_num : 0 < 256),
          Nat.div_div_eq_div_mul]
        norm_num
        exact hb
      have h := lor_two_pow_of_bit_set hd
      norm_num at h
      exact h
    have hfin : (w / 32 * 256) ||| (w % 32) = w / 32 * 256 + w % 32 := by
      have h := lor_mul_pow_eq_add 8 (w / 32) (w % 32) (by omega)
      norm_num at h
      exact h
    rw [habs, hfin]
  · rw [if_neg hbit]

/-- Arithmetic form of the encoder on an extended type code
`t * 256 + u` with `256 ≤ t` (so the code is `≥ 0x10000`). -/
theorem encodeTypeSubtype_arith_ext (t u s : Nat) (ht : t < 2048)
    (ht256 : 256 ≤ t) (hu : u < 32) :
    encodeTypeSubtype (t * 256 + u) s = 0x2000 ||| (t * 32 + u) := by
  have hT : t * 256 + u ≥ 0x10000 := by omega
  have h1 : (t * 256 + u) &&& 0xFF = u := by
    have h := and_mask_eq_mod (t * 256 + u) 8
    norm_num at h
    rw [h]
    omega
  have h2 : ((t * 256 + u) >>> 8) &&& 0x7FF = t := by
    rw [Nat.shiftRight_eq_div_pow]
    have h := and_mask_eq_mod ((t * 256 + u) / 2 ^ 8) 11
    norm_num at h ⊢
    rw [h]
    omega
  have h3 : (t % 65536) &&& 0x7FF = t := by
    have h := and_mask_eq_mod (t % 65536) 11
    norm_num at h
    rw [h]
    omega
  have h4 : ((u % 65536) <<< 11) % 65536 = u * 2048 := by
    rw [Nat.shiftLeft_eq]
    norm_num
    omega
  have h5 : t ||| (u * 2048) = u * 2048 + t := by
    rw [Nat.lor_comm]
    have h := lor_mul_pow_eq_add 11 u t (by omega)
    norm_num at h
    exact h
  have h6 : ((u * 2048 + t) <<< 5) % 65536 = t * 32 := by
    rw [Nat.shiftLeft_eq]
    norm_num
    omega
  have h7 : (t * 32) &&& 0xFFE0 = t * 32 := by
    have h := and_bit_window (t * 32) 5 11
    norm_num at h
    rw [h]
    omega
  have h8 : ((u * 2048 + t) >>> 11) &&& 0x1F = u := by
    rw [Nat.shiftRight_eq_div_pow]
    have h := and_mask_eq_mod ((u * 2048 + t) / 2 ^ 11) 5
    norm_num at h ⊢
    rw [h]
    omega
  have h9 : (t * 32) ||| u = t * 32 + u := by
    have h := lor_mul_pow_eq_add 5 t u (by omega)
    norm_num at h
    exact h
  simp only [encodeTypeSubtype]
  rw [if_pos hT]
  rw [h1, h2, h3, h4, h5, h6, h7, h8]
  rw [Nat.lor_assoc, h9]

/-- Arithmetic form of the encoder on a non-extended type code
`t * 256 + u` with `t < 256` (so the code is `< 0x10000`). -/
theorem encodeTypeSubtype_arith_noext (t u s : Nat) (ht : t < 256) (hu : u < 32) :
    encodeTypeSubtype (t * 256 + u) s = t * 32 + u := by
  have hT : ¬ t * 256 + u ≥ 0x10000 := by omega
  have h1 : (t * 256 + u) &&& 0xFF = u := by
    have h := and_mask_eq_mod (t * 256 + u) 8
    norm_num at h
    rw [h]
    omega
  have h2 : (t * 256 + u) >>> 8 = t := by
    rw [Nat.shiftRight_eq_div_pow]
    norm_num
    omega
  have h3 : (t % 65536) &&& 0x7FF = t := by
    have h := and_mask_eq_mod (t % 65536) 11
    norm_num at h
    rw [h]
    omega
  have h4 : ((u % 65536) <<< 11) % 65536 = u * 2048 := by
    rw [Nat.shiftLeft_eq]
    norm_num
    omega
  have h5 : t ||| (u * 2048) = u * 2048 + t := by
    rw [Nat.lor_comm]
    have h := lor_mul_pow_eq_add 11 u t (by omega)
    norm_num at h
    exact h
  have h6 : ((u * 2048 + t) <<< 5) % 65536 = t * 32 := by
    rw [Nat.shiftLeft_eq]
    norm_num
    omega
  have h7 : (t * 32) &&& 0xFFE0 = t * 32 := by
    have h := and_bit_window (t * 32) 5 11
    norm_num at h
    rw [h]
    omega
  have h8 : ((u * 2048 + t) >>> 11) &&& 0x1F = u := by
    rw [Nat.shiftRight_eq_div_pow]
    have h := and_mask_eq_mod ((u * 2048 + t) / 2 ^ 11) 5
    norm_num at h ⊢
    rw [h]
    omega
  have h9 : (t * 32) ||| u = t * 32 + u := by
    have h := lor_mul_pow_eq_add 5 t u (by omega)
    norm_num at h
    exact h
  simp only [encodeTypeSubtype]
  rw [if_neg hT]
  rw [h1, h2, h3, h4, h5, h6, h7, h8, h9]

/-- C1 (counterexample).  The claim "for every 16-bit wire word w,
encode(decode(w)) == w" fails at the concrete word 0x4000 (bit 13 clear,
bit 14 set): the decoder yields type code 0x20000, the encoder treats any
code ≥ 0x10000 as extended and sets bit 0x2000, producing 0x6000 ≠ 0x4000. -/
theorem claim_C1_counterexample :
    encodeTypeSubtype (decodeTypeSubtype 0x4000).1 (decodeTypeSubtype 0x4000).2 ≠ 0x4000 := by
  decide

/-- C1 (amended).  For every 16-bit wire word w in which bit 0x2000 is set,
or in which bits 0x4000 and 0x8000 are both clear, encoding the decoded
(type, subtype) pair reproduces w. -/
theorem claim_C1 (w : Nat) (hw : w < 65536)
    (hcond : w &&& 0x2000 ≠ 0 ∨ w &&& 0xC000 = 0) :
    encodeTypeSubtype (decodeTypeSubtype w).1 (decodeTypeSubtype w).2 = w := by
  rw [decodeTypeSubtype_arith w hw]
  have h13 := and_bit_window w 13 1
  norm_num at h13
  have h14 := and_bit_window w 14 2
  norm_num at h14
  by_cases hb : w / 8192 % 2 = 1
  · have ht : 256 ≤ w / 32 := by omega
    have he := encodeTypeSubtype_arith_ext (w / 32) (w % 32) (w % 32)
      (by omega) ht (by omega)
    rw [he]
    have hw32 : w / 32 * 32 + w % 32 = w := by omega
    rw [hw32]
    have habs := @lor_two_pow_of_bit_set w 13 (by norm_num; exact hb)
    norm_num at habs
    exact habs
  · rcases hcond with hl | hr
    · exfalso
      rw [h13] at hl
      omega
    · rw [h14] at hr
      have he := encodeTypeSubtype_arith_noext (w / 32) (w % 32) (w % 32)
        (by omega) (by omega)
      rw [he]
      omega

/-- C1 (witness).  The amended round-trip theorem applied at the concrete
word 0x2F06 (whose bit 0x2000 is set, i.e. the extended case). -/
theorem claim_C1_witness :
    (0x2F06:Nat) < 65536 ∧ ((0x2F06:Nat) &&& 0x2000 ≠ 0 ∨ (0x2F06:Nat) &&& 0xC000 = 0) ∧
      encodeTypeSubtype (decodeTypeSubtype 0x2F06).1 (decodeTypeSubtype 0x2F06).2 = 0x2F06 :=
  ⟨by norm_num, by decide, claim_C1 0x2F06 (by norm_num) (by decide)⟩

/-- C10.  The 16-bit index-array word the binary writer emits depends only
on the feature's type code: `encodeTypeSubtype` never reads its subtype
argument (the Go code shadows the parameter with `typ & 0xFF` in both
branches), so any two subtype arguments give the same word, and the word
equals the one computed from the type code's own low byte. -/
theorem claim_C10 :
    (∀ typ s1 s2 : Nat, encodeTypeSubtype typ s1 = encodeTypeSubtype typ s2) ∧
      (∀ typ s : Nat, encodeTypeSubtype typ s = encodeTypeSubtype typ (typ &&& 0xFF)) :=
  ⟨fun _ _ _ => rfl, fun _ _ => rfl⟩

/-! ## List helpers -/

/-- Element of a `map` over `range`, read with `getD`, below the length. -/
theorem getD_map_range (B : Nat) (f : Nat → Nat) (j : Nat) (h : j < B) :
    ((List.range B).map f).getD j 0 = f j := by
  rw [List.getD_eq_getElem?_getD, List.getElem?_map, List.getElem?_range h]
  rfl

/-- A pointwise bound on list members extends to `getD` reads (the default
0 is below any positive bound). -/
theorem getD_lt_of_forall (l : List Nat) (c : Nat) (hc : 0 < c)
    (h : ∀ v ∈ l, v < c) : ∀ i, l.getD i 0 < c := by
  intro i
  by_cases hi : i < l.length
  · rw [List.getD_eq_getElem l 0 hi]
    exact h _ (List.getElem_mem hi)
  · rw [List.getD_eq_default l 0 (by omega)]
    exact hc

/-! ## Bit-packed bitmap codec (C2 in the spec)

`writeBitmap` embeds `Writer.writeBitmap` (src/unnamed/part_005, lines
473-528); `readBitmap` embeds `Reader.readBitmap`
(src/internal/binary/reader.go, lines 663-727).

The Go packer iterates over the pixels of a zero-initialised byte array,
or-ing each pixel's contribution into its byte; the contributions of the
pixels of one byte occupy disjoint bit ranges, so byte `j` is the sum of
the contributions of pixels `ppb*j … ppb*j+ppb-1` (`ppb` pixels per
byte), and a pixel index beyond the plane contributes nothing (the Go
loop stops at `totalPixels`; here `getD _ _ 0` yields 0 there).
-/

/-- Packed byte count: `bitsTotal/8`, plus one when a partial byte remains
(both Go functions compute it this way). -/
def bitmapBytesNeeded (totalPixels bpp : Nat) : Nat :=
  totalPixels * bpp / 8 + (if totalPixels * bpp % 8 = 0 then 0 else 1)

/-- Byte `j` of the 1-bpp packing: bit `7-k` is set iff pixel `8j+k` is
nonzero (`if pixelData[i] > 0` in the Go code). -/
def packByte1 (p : List Nat) (j : Nat) : Nat :=
  ((List.range 8).map fun k => if 0 < p.getD (8 * j + k) 0 then 2 ^ (7 - k) else 0).sum

/-- Byte `j` of the 2-bpp packing: pixel `4j+k` masked to 2 bits, shifted
to bit pair `3-k`. -/
def packByte2 (p : List Nat) (j : Nat) : Nat :=
  ((List.range 4).map fun k => p.getD (4 * j + k) 0 % 4 * 2 ^ ((3 - k) * 2)).sum

/-- Byte `j` of the 4-bpp packing: pixel `2j` in the high nibble, pixel
`2j+1` in the low nibble, each masked to 4 bits. -/
def packByte4 (p : List Nat) (j : Nat) : Nat :=
  p.getD (2 * j) 0 % 16 * 16 + p.getD (2 * j + 1) 0 % 16

/-- Byte `j` of the 8-bpp packing: a straight copy. -/
def packByte8 (p : List Nat) (j : Nat) : Nat := p.getD j 0

/-- The writer's bit-packer.  Mirrors the Go `writeBitmap`: a length
mismatch or an unsupported bpp is an error, otherwise the packed bytes. -/
def writeBitmap (pixelData : List Nat) (width height bpp : Nat) :
    Except String (List Nat) :=
  let totalPixels := width * height
  if pixelData.length ≠ totalPixels then
    .error "pixel data size mismatch"
  else
    let bytesNeeded := bitmapBytesNeeded totalPixels bpp
    match bpp with
    | 1 => .ok ((List.range bytesNeeded).map (packByte1 pixelData))
    | 2 => .ok ((List.range bytesNeeded).map (packByte2 pixelData))
    | 4 => .ok ((List.range bytesNeeded).map (packByte4 pixelData))
    | 8 => .ok ((List.range bytesNeeded).map (packByte8 pixelData))
    | _ => .error "unsupported bpp"

/-- Pixel `i` of the 1-bpp unpacking at buffer position `pos`. -/
def unpackPixel1 (buf : List Nat) (pos i : Nat) : Nat :=
  buf.getD (pos + i / 8) 0 >>> (7 - i % 8) &&& 0x01

/-- Pixel `i` of the 2-bpp unpacking. -/
def unpackPixel2 (buf : List Nat) (pos i : Nat) : Nat :=
  buf.getD (pos + i / 4) 0 >>> ((3 - i % 4) * 2) &&& 0x03

/-- Pixel `i` of the 4-bpp unpacking (high nibble first). -/
def unpackPixel4 (buf : List Nat) (pos i : Nat) : Nat :=
  if i % 2 = 0 then buf.getD (pos + i / 2) 0 >>> 4 &&& 0x0F
  else buf.getD (pos + i / 2) 0 &&& 0x0F

/-- Pixel `i` of the 8-bpp unpacking. -/
def unpackPixel8 (buf : List Nat) (pos i : Nat) : Nat :=
  buf.getD (pos + i) 0

/-- The reader's unpacker.  Mirrors the Go `readBitmap`: an up-front
bounds check against the packed size, the per-pixel truncation checks of
the Go loops, and on success the pixel plane together with the number of
bytes consumed. -/
def readBitmap (buf : List Nat) (pos width height bpp : Nat) :
    Except String (List Nat × Nat) :=
  let bytesNeeded := bitmapBytesNeeded (width * height) bpp
  if buf.length < pos + bytesNeeded then
    .error "buffer too small for bitmap"
  else
    let totalPixels := width * height
    match bpp with
    | 1 =>
      if (List.range totalPixels).any fun i => buf.length ≤ pos + i / 8 then
        .error "bitmap data truncated"
      else .ok ((List.range totalPixels).map (unpackPixel1 buf pos), bytesNeeded)
    | 2 =>
      if (List.range totalPixels).any fun i => buf.length ≤ pos + i / 4 then
        .error "bitmap data truncated"
      else .ok ((List.range totalPixels).map (unpackPixel2 buf pos), bytesNeeded)
    | 4 =>
      if (List.range totalPixels).any fun i => buf.length ≤ pos + i / 2 then
        .error "bitmap data truncated"
      else .ok ((List.range totalPixels).map (unpackPixel4 buf pos), bytesNeeded)
    | 8 =>
      if buf.length < pos + totalPixels then
        .error "bitmap data truncated"
      else .ok ((List.range totalPixels).map (unpackPixel8 buf pos), bytesNeeded)
    | _ => .error "unsupported bpp"

/-- An `if 0 < b then c else 0` with a bit-valued `b` is `b * c`. -/
theorem ite_bit_mul (b c : Nat) (hb : b < 2) :
    (if 0 < b then c else 0) = b * c := by
  by_cases h : 0 < b
  · rw [if_pos h, show b = 1 from by omega, Nat.one_mul]
  · rw [if_neg h, show b = 0 from by omega, Nat.zero_mul]

/-- Closed form of a 1-bpp packed byte when all pixel values are bits. -/
theorem packByte1_eq (p : List Nat) (j : Nat) (hv : ∀ k, p.getD k 0 < 2) :
    packByte1 p j =
      p.getD (8 * j) 0 * 128 + p.getD (8 * j + 1) 0 * 64 +
      p.getD (8 * j + 2) 0 * 32 + p.getD (8 * j + 3) 0 * 16 +
      p.getD (8 * j + 4) 0 * 8 + p.getD (8 * j + 5) 0 * 4 +
      p.getD (8 * j + 6) 0 * 2 + p.getD (8 * j + 7) 0 := by
  unfold packByte1
  rw [show List.range 8 = [0, 1, 2, 3, 4, 5, 6, 7] from rfl]
  simp only [List.map_cons, List.map_nil, List.sum_cons, List.sum_nil, Nat.add_zero]
  rw [ite_bit_mul (p.getD (8 * j) 0) _ (hv _), ite_bit_mul (p.getD (8 * j + 1) 0) _ (hv _),
    ite_bit_mul (p.getD (8 * j + 2) 0) _ (hv _), ite_bit_mul (p.getD (8 * j + 3) 0) _ (hv _),
    ite_bit_mul (p.getD (8 * j + 4) 0) _ (hv _), ite_bit_mul (p.getD (8 * j + 5) 0) _ (hv _),
    ite_bit_mul (p.getD (8 * j + 6) 0) _ (hv _), ite_bit_mul (p.getD (8 * j + 7) 0) _ (hv _)]
  norm_num
  omega

/-- Closed form of a 2-bpp packed byte. -/
theorem packByte2_eq (p : List Nat) (j : Nat) :
    packByte2 p j =
      p.getD (4 * j) 0 % 4 * 64 + p.getD (4 * j + 1) 0 % 4 * 16 +
      p.getD (4 * j + 2) 0 % 4 * 4 + p.getD (4 * j + 3) 0 % 4 := by
  unfold packByte2
  rw [show List.range 4 = [0, 1, 2, 3] from rfl]
  simp only [List.map_cons, List.map_nil, List.sum_cons, List.sum_nil, Nat.add_zero]
  norm_num
  omega

/-- One unpacked 1-bpp pixel of a packed plane is the original pixel. -/
theorem unpack_pack_1 (p : List Nat) (B i : Nat) (hv : ∀ v ∈ p, v < 2)
    (hiB : i / 8 < B) :
    unpackPixel1 ((List.range B).map (packByte1 p)) 0 i = p.getD i 0 := by
  have hb := getD_lt_of_forall p 2 (by norm_num) hv
  unfold unpackPixel1
  rw [Nat.zero_add, getD_map_range B _ (i / 8) hiB, packByte1_eq p (i / 8) hb]
  have hand := Nat.and_one_is_mod
  rw [Nat.and_one_is_mod, Nat.shiftRight_eq_div_pow]
  have h0 := hb (8 * (i / 8))
  have h1 := hb (8 * (i / 8) + 1)
  have h2 := hb (8 * (i / 8) + 2)
  have h3 := hb (8 * (i / 8) + 3)
  have h4 := hb (8 * (i / 8) + 4)
  have h5 := hb (8 * (i / 8) + 5)
  have h6 := hb (8 * (i / 8) + 6)
  have h7 := hb (8 * (i / 8) + 7)
  have hm : i % 8 = 0 ∨ i % 8 = 1 ∨ i % 8 = 2 ∨ i % 8 = 3 ∨ i % 8 = 4 ∨
      i % 8 = 5 ∨ i % 8 = 6 ∨ i % 8 = 7 := by omega
  rcases hm with h | h | h | h | h | h | h | h
  · rw [h, show (2:Nat) ^ (7 - 0) = 128 from by norm_num,
      show p.getD i 0 = p.getD (8 * (i / 8)) 0 from by rw [show 8 * (i / 8) = i from by omega]]
    omega
  · rw [h, show (2:Nat) ^ (7 - 1) = 64 from by norm_num,
      show p.getD i 0 = p.getD (8 * (i / 8) + 1) 0 from by rw [show 8 * (i / 8) + 1 = i from by omega]]
    omega
  · rw [h, show (2:Nat) ^ (7 - 2) = 32 from by norm_num,
      show p.getD i 0 = p.getD (8 * (i / 8) + 2) 0 from by rw [show 8 * (i / 8) + 2 = i from by omega]]
    omega
  · rw [h, show (2:Nat) ^ (7 - 3) = 16 from by norm_num,
      show p.getD i 0 = p.getD (8 * (i / 8) + 3) 0 from by rw [show 8 * (i / 8) + 3 = i from by omega]]
    omega
  · rw [h, show (2:Nat) ^ (7 - 4) = 8 from by norm_num,
      show p.getD i 0 = p.getD (8 * (i / 8) + 4) 0 from by rw [show 8 * (i / 8) + 4 = i from by omega]]
    omega
  · rw [h, show (2:Nat) ^ (7 - 5) = 4 from by norm_num,
      show p.getD i 0 = p.getD (8 * (i / 8) + 5) 0 from by rw [show 8 * (i / 8) + 5 = i from by omega]]
    omega
  · rw [h, show (2:Nat) ^ (7 - 6) = 2 from by norm_num,
      show p.getD i 0 = p.getD (8 * (i / 8) + 6) 0 from by rw [show 8 * (i / 8) + 6 = i from by omega]]
    omega
  · rw [h, show (2:Nat) ^ (7 - 7) = 1 from by norm_num,
      show p.getD i 0 = p.getD (8 * (i / 8) + 7) 0 from by rw [show 8 * (i / 8) + 7 = i from by omega]]
    omega

/-- One unpacked 2-bpp pixel of a packed plane is the original pixel. -/
theorem unpack_pack_2 (p : List Nat) (B i : Nat) (hv : ∀ v ∈ p, v < 4)
    (hiB : i / 4 < B) :
    unpackPixel2 ((List.range B).map (packByte2 p)) 0 i = p.getD i 0 := by
  have hb := getD_lt_of_forall p 4 (by norm_num) hv
  unfold unpackPixel2
  rw [Nat.zero_add, getD_map_range B _ (i / 4) hiB, packByte2_eq p (i / 4)]
  have hand : ∀ x : Nat, x &&& 3 = x % 4 := by
    intro x
    have h := and_mask_eq_mod x 2
    norm_num at h
    exact h
  rw [hand, Nat.shiftRight_eq_div_pow]
  have h0 := hb (4 * (i / 4))
  have h1 := hb (4 * (i / 4) + 1)
  have h2 := hb (4 * (i / 4) + 2)
  have h3 := hb (4 * (i / 4) + 3)
  have hm : i % 4 = 0 ∨ i % 4 = 1 ∨ i % 4 = 2 ∨ i % 4 = 3 := by omega
  rcases hm with h | h | h | h
  · rw [h, show (2:Nat) ^ ((3 - 0) * 2) = 64 from by norm_num,
      show p.getD i 0 = p.getD (4 * (i / 4)) 0 from by rw [show 4 * (i / 4) = i from by omega]]
    omega
  · rw [h, show (2:Nat) ^ ((3 - 1) * 2) = 16 from by norm_num,
      show p.getD i 0 = p.getD (4 * (i / 4) + 1) 0 from by rw [show 4 * (i / 4) + 1 = i from by omega]]
    omega
  · rw [h, show (2:Nat) ^ ((3 - 2) * 2) = 4 from by norm_num,
      show p.getD i 0 = p.getD (4 * (i / 4) + 2) 0 from by rw [show 4 * (i / 4) + 2 = i from by omega]]
    omega
  · rw [h, show (2:Nat) ^ ((3 - 3) * 2) = 1 from by norm_num,
      show p.getD i 0 = p.getD (4 * (i / 4) + 3) 0 from by rw [show 4 * (i / 4) + 3 = i from by omega]]
    omega

/-- One unpacked 4-bpp pixel of a packed plane is the original pixel. -/
theorem unpack_pack_4 (p : List Nat) (B i : Nat) (hv : ∀ v ∈ p, v < 16)
    (hiB : i / 2 < B) :
    unpackPixel4 ((List.range B).map (packByte4 p)) 0 i = p.getD i 0 := by
  have hb := getD_lt_of_forall p 16 (by norm_num) hv
  unfold unpackPixel4
  rw [Nat.zero_add, getD_map_range B _ (i / 2) hiB]
  unfold packByte4
  have hand : ∀ x : Nat, x &&& 15 = x % 16 := by
    intro x
    have h := and_mask_eq_mod x 4
    norm_num at h
    exact h
  have h0 := hb (2 * (i / 2))
  have h1 := hb (2 * (i / 2) + 1)
  by_cases h : i % 2 = 0
  · rw [if_pos h, hand, Nat.shiftRight_eq_div_pow,
      show (2:Nat) ^ 4 = 16 from by norm_num,
      show p.getD i 0 = p.getD (2 * (i / 2)) 0 from by rw [show 2 * (i / 2) = i from by omega]]
    omega
  · rw [if_neg h, hand,
      show p.getD i 0 = p.getD (2 * (i / 2) + 1) 0 from by rw [show 2 * (i / 2) + 1 = i from by omega]]
    omega

/-- One unpacked 8-bpp pixel of a packed plane is the original pixel. -/
theorem unpack_pack_8 (p : List Nat) (B i : Nat) (hiB : i < B) :
    unpackPixel8 ((List.range B).map (packByte8 p)) 0 i = p.getD i 0 := by
  unfold unpackPixel8
  rw [Nat.zero_add, getD_map_range B _ i hiB]
  rfl

/-- The packed byte count times 8 covers all pixel bits. -/
theorem bytesNeeded_bound (T bpp : Nat) :
    T * bpp ≤ bitmapBytesNeeded T bpp * 8 := by
  unfold bitmapBytesNeeded
  by_cases h : T * bpp % 8 = 0
  · rw [if_pos h]
    omega
  · rw [if_neg h]
    omega

/-- C4.  Bitmap pack/unpack round-trip: for every width, height and
bpp ∈ {1,2,4,8} with width·height ≤ 1024, packing a pixel plane whose
values fit in bpp bits with the writer's bit-packer and unpacking the
result with the reader's unpacker returns the original plane (consuming
exactly the packed bytes). -/
theorem claim_C4 (plane : List Nat) (width height bpp : Nat)
    (hbpp : bpp = 1 ∨ bpp = 2 ∨ bpp = 4 ∨ bpp = 8)
    (hsize : width * height ≤ 1024)
    (hlen : plane.length = width * height)
    (hvals : ∀ v ∈ plane, v < 2 ^ bpp) :
    ∃ packed, writeBitmap plane width height bpp = Except.ok packed ∧
      readBitmap packed 0 width height bpp = Except.ok (plane, packed.length) := by
  have hTB := bytesNeeded_bound (width * height) bpp
  rcases hbpp with h | h | h | h
  · subst h
    have hv : ∀ v ∈ plane, v < 2 := by simpa using hvals
    refine ⟨(List.range (bitmapBytesNeeded (width * height) 1)).map (packByte1 plane),
      ?_, ?_⟩
    · simp [writeBitmap, hlen]
    · have hLlen : ((List.range (bitmapBytesNeeded (width * height) 1)).map
          (packByte1 plane)).length = bitmapBytesNeeded (width * height) 1 := by
        simp
      have hany : ((List.range (width * height)).any fun i =>
          decide (bitmapBytesNeeded (width * height) 1 ≤ 0 + i / 8)) = false := by
        rw [List.any_eq_false]
        intro i hi
        rw [List.mem_range] at hi
        simp only [decide_eq_true_eq]
        omega
      have hplane : (List.range (width * height)).map
          (unpackPixel1 ((List.range (bitmapBytesNeeded (width * height) 1)).map
            (packByte1 plane)) 0) = plane := by
        apply List.ext_getElem
        · simp [hlen]
        · intro i h1 h2
          simp only [List.getElem_map, List.getElem_range]
          have hi : i < width * height := by simpa using h1
          rw [unpack_pack_1 plane (bitmapBytesNeeded (width * height) 1) i hv (by omega)]
          exact List.getD_eq_getElem plane 0 h2
      simp only [readBitmap, hLlen]
      rw [if_neg (by omega), hany, if_neg (by simp), hplane]
  · subst h
    have hv : ∀ v ∈ plane, v < 4 := by simpa using hvals
    refine ⟨(List.range (bitmapBytesNeeded (width * height) 2)).map (packByte2 plane),
      ?_, ?_⟩
    · simp [writeBitmap, hlen]
    · have hLlen : ((List.range (bitmapBytesNeeded (width * height) 2)).map
          (packByte2 plane)).length = bitmapBytesNeeded (width * height) 2 := by
        simp
      have hany : ((List.range (width * height)).any fun i =>
          decide (bitmapBytesNeeded (width * height) 2 ≤ 0 + i / 4)) = false := by
        rw [List.any_eq_false]
        intro i hi
        rw [List.mem_range] at hi
        simp only [decide_eq_true_eq]
        omega
      have hplane : (List.range (width * height)).map
          (unpackPixel2 ((List.range (bitmapBytesNeeded (width * height) 2)).map
            (packByte2 plane)) 0) = plane := by
        apply List.ext_getElem
        · simp [hlen]
        · intro i h1 h2
          simp only [List.getElem_map, List.getElem_range]
          have hi : i < width * height := by simpa using h1
          rw [unpack_pack_2 plane (bitmapBytesNeeded (width * height) 2) i hv (by omega)]
          exact List.getD_eq_getElem plane 0 h2
      simp only [readBitmap, hLlen]
      rw [if_neg (by omega), hany, if_neg (by simp), hplane]
  · subst h
    have hv : ∀ v ∈ plane, v < 16 := by simpa using hvals
    refine ⟨(List.range (bitmapBytesNeeded (width * height) 4)).map (packByte4 plane),
      ?_, ?_⟩
    · simp [writeBitmap, hlen]
    · have hLlen : ((List.range (bitmapBytesNeeded (width * height) 4)).map
          (packByte4 plane)).length = bitmapBytesNeeded (width * height) 4 := by
        simp
      have hany : ((List.range (width * height)).any fun i =>
          decide (bitmapBytesNeeded (width * height) 4 ≤ 0 + i / 2)) = false := by
        rw [List.any_eq_false]
        intro i hi
        rw [List.mem_range] at hi
        simp only [decide_eq_true_eq]
        omega
      have hplane : (List.range (width * height)).map
          (unpackPixel4 ((List.range (bitmapBytesNeeded (width * height) 4)).map
            (packByte4 plane)) 0) = plane := by
        apply List.ext_getElem
        · simp [hlen]
        · intro i h1 h2
          simp only [List.getElem_map, List.getElem_range]
          have hi : i < width * height := by simpa using h1
          rw [unpack_pack_4 plane (bitmapBytesNeeded (width * height) 4) i hv (by omega)]
          exact List.getD_eq_getElem plane 0 h2
      simp only [readBitmap, hLlen]
      rw [if_neg (by omega), hany, if_neg (by simp), hplane]
  · subst h
    refine ⟨(List.range (bitmapBytesNeeded (width * height) 8)).map (packByte8 plane),
      ?_, ?_⟩
    · simp [writeBitmap, hlen]
    · have hLlen : ((List.range (bitmapBytesNeeded (width * height) 8)).map
          (packByte8 plane)).length = bitmapBytesNeeded (width * height) 8 := by
        simp
      have hplane : (List.range (width * height)).map
          (unpackPixel8 ((List.range (bitmapBytesNeeded (width * height) 8)).map
            (packByte8 plane)) 0) = plane := by
        apply List.ext_getElem
        · simp [hlen]
        · intro i h1 h2
          simp only [List.getElem_map, List.getElem_range]
          have hi : i < width * height := by simpa using h1
          rw [unpack_pack_8 plane (bitmapBytesNeeded (width * height) 8) i (by omega)]
          exact List.getD_eq_getElem plane 0 h2
      simp only [readBitmap, hLlen]
      rw [if_neg (by omega), if_neg (by omega)]
      rw [hplane]

/-- C4 (witness).  The round-trip theorem applied to the concrete 3×1
plane [1,0,1] at 1 bpp. -/
theorem claim_C4_witness :
    ∃ packed, writeBitmap [1, 0, 1] 3 1 1 = Except.ok packed ∧
      readBitmap packed 0 3 1 1 = Except.ok ([1, 0, 1], packed.length) :=
  claim_C4 [1, 0, 1] 3 1 1 (by norm_num) (by norm_num) (by norm_num)
    (by intro v hv; fin_cases hv <;> norm_num)

/-- C8 (amended).  What the reader actually guarantees for an unpacked
bitmap: every pixel value is below `2 ^ bpp` (bpp as derived from the
palette size via `calculateBPP`).  It does not check pixel values against
the palette length itself. -/
theorem claim_C8 (buf : List Nat) (pos width height bpp : Nat)
    (px : List Nat) (n : Nat)
    (hbpp : bpp = 1 ∨ bpp = 2 ∨ bpp = 4 ∨ bpp = 8)
    (hbytes : ∀ b ∈ buf, b < 256)
    (hok : readBitmap buf pos width height bpp = Except.ok (px, n)) :
    ∀ v ∈ px, v < 2 ^ bpp := by
  rcases hbpp with h | h | h | h
  · subst h
    simp only [readBitmap] at hok
    split_ifs at hok
    simp only [Except.ok.injEq, Prod.mk.injEq] at hok
    obtain ⟨hpx, hn⟩ := hok
    subst hpx
    intro v hv
    obtain ⟨i, hi, rfl⟩ := List.mem_map.mp hv
    unfold unpackPixel1
    exact lt_of_le_of_lt Nat.and_le_right (by norm_num)
  · subst h
    simp only [readBitmap] at hok
    split_ifs at hok
    simp only [Except.ok.injEq, Prod.mk.injEq] at hok
    obtain ⟨hpx, hn⟩ := hok
    subst hpx
    intro v hv
    obtain ⟨i, hi, rfl⟩ := List.mem_map.mp hv
    unfold unpackPixel2
    exact lt_of_le_of_lt Nat.and_le_right (by norm_num)
  · subst h
    simp only [readBitmap] at hok
    split_ifs at hok
    simp only [Except.ok.injEq, Prod.mk.injEq] at hok
    obtain ⟨hpx, hn⟩ := hok
    subst hpx
    intro v hv
    obtain ⟨i, hi, rfl⟩ := List.mem_map.mp hv
    unfold unpackPixel4
    split_ifs
    · exact lt_of_le_of_lt Nat.and_le_right (by norm_num)
    · exact lt_of_le_of_lt Nat.and_le_right (by norm_num)
  · subst h
    simp only [readBitmap] at hok
    split_ifs at hok
    simp only [Except.ok.injEq, Prod.mk.injEq] at hok
    obtain ⟨hpx, hn⟩ := hok
    subst hpx
    intro v hv
    obtain ⟨i, hi, rfl⟩ := List.mem_map.mp hv
    unfold unpackPixel8
    have h := getD_lt_of_forall buf 256 (by norm_num) hbytes (pos + i)
    rw [show (2:Nat) ^ 8 = 256 from by norm_num]
    exact h

/-- C8 (witness).  The amended bound applied to a concrete 2-byte buffer
read as a 4×1 plane at 4 bpp. -/
theorem claim_C8_witness :
    readBitmap [0xAB, 0xCD] 0 4 1 4 = Except.ok ([0xA, 0xB, 0xC, 0xD], 2) ∧
      ∀ v ∈ [0xA, 0xB, 0xC, 0xD], v < 2 ^ 4 :=
  ⟨by rfl, claim_C8 [0xAB, 0xCD] 0 4 1 4 [0xA, 0xB, 0xC, 0xD] 2
    (by norm_num) (by decide) (by rfl)⟩

/-! ## Label block codec (C3 in the spec)

`writeLabels` embeds `Writer.writeLabels` (src/unnamed/part_005, lines
530-586).  The Go function iterates the label map, serialising each entry
as `langcode ∥ encodeString(text) ∥ 0x00` into `labelsBuf` and then
prefixes the data with the length field.  Here the map is an association
list whose values are the already-encoded bytes (the `encodeString` step,
a call into the external golang.org/x/text charmap library, happens per
entry before these bytes exist); Go's map iteration order is unspecified,
the list order stands in for it.

`readLabels` embeds `Reader.readLabels` (src/internal/binary/reader.go,
lines 744-833).  Its two Go loops advance `pos` by at least one per
iteration, so they run at most `buf.length` times; they are modelled by
structural recursion on a fuel argument that callers instantiate with
`buf.length + 1`, which the loops can never exhaust.
-/

/-- One serialized label entry: language-code byte, encoded text bytes,
0x00 terminator. -/
def labelEntryBytes (e : Nat × List Nat) : List Nat :=
  e.1 :: (e.2 ++ [0])

/-- The serialized entry data (Go's `labelsBuf`). -/
def labelsData (entries : List (Nat × List Nat)) : List Nat :=
  entries.flatMap labelEntryBytes

/-- The label-block encoder: chooses the 1- or 2-byte length field and
emits the prefix followed by the data, as `writeLabels` does. -/
def writeLabels (entries : List (Nat × List Nat)) : List Nat :=
  let data := labelsData entries
  let actualLength := data.length
  let length1 := actualLength * 2 + 1
  if length1 > 255 then
    let length := actualLength * 4 + 2
    let length16 := (length % 65536) &&& 0xFFFE
    (length16 &&& 0xFF) :: (length16 >>> 8) :: data
  else
    (length1 ||| 0x01) :: data

/-- Decoded-string stand-in used in concrete runs: every byte becomes the
character with that code point.  On ASCII bytes this is exactly what the
external charmap decoders (and raw UTF-8) do. -/
def asciiDec (bytes : List Nat) : String :=
  String.mk (bytes.map Char.ofNat)

/-- Insert-or-overwrite into the label association list, mirroring Go map
assignment keyed by the `%02x`-formatted language code (which is in
bijection with the code byte). -/
def labelsInsert (m : List (Nat × String)) (k : Nat) (v : String) :
    List (Nat × String) :=
  if m.any fun e => e.1 == k then
    m.map fun e => if e.1 == k then (k, v) else e
  else m ++ [(k, v)]

/-- The inner string loop of `readLabels`: consumes bytes until the 0x00
terminator, the end of the buffer, an exhausted counter, or 256 collected
bytes; returns the collected bytes, the new position and the counter. -/
def readLabelString (buf : List Nat) (n : Nat) :
    Nat → Nat → Int → List Nat → List Nat × Nat × Int
  | 0, pos, length, str => (str, pos, length)
  | fuel + 1, pos, length, str =>
    if length > 0 ∧ pos < buf.length ∧ str.length < 256 then
      let t8 := buf.getD pos 0
      let length2 := length - 2 * n
      if t8 = 0 then (str, pos + 1, length2)
      else readLabelString buf n fuel (pos + 1) length2 (str ++ [t8])
    else (str, pos, length)

/-- The outer entry loop of `readLabels`.  Each iteration reads a
language-code byte (backing up and stopping on an implausible one), the
string body, and stores the decoded text when it is nonempty, shorter
than 256 bytes and at least 70% printable. -/
def readLabelsLoop (dec : List Nat → String) (buf : List Nat) (n : Nat) :
    Nat → Nat → Int → List (Nat × String) → List (Nat × String) × Nat
  | 0, pos, _, labels => (labels, pos)
  | fuel + 1, pos, length, labels =>
    if length > 0 ∧ pos < buf.length then
      if length < 2 * n then (labels, pos)
      else
        let langCode := buf.getD pos 0
        let length2 := length - 2 * n
        if 0x40 < langCode ∧ langCode ≠ 0xbc then
          -- pos++ followed by pos--: net position unchanged, loop stops
          (labels, pos)
        else if buf.length ≤ pos + 1 then (labels, pos + 1)
        else
          let r := readLabelString buf n (buf.length + 1) (pos + 1) length2 []
          let str := r.1
          let labels2 :=
            if 0 < str.length ∧ str.length < 256 then
              let labelText := dec str
              let printableCount := (labelText.data.filter fun c =>
                (32 ≤ c.toNat ∧ c.toNat < 127) ∨ 160 ≤ c.toNat).length
              if 0 < labelText.utf8ByteSize ∧
                  70 ≤ printableCount * 100 / labelText.utf8ByteSize then
                labelsInsert labels langCode labelText
              else labels
            else labels
          readLabelsLoop dec buf n fuel r.2.1 r.2.2 labels2
    else (labels, pos)

/-- The label-block decoder: reads the 1- or 2-byte length prefix, seeds
the `2·n`-per-byte counter, and runs the entry loop.  The only error the
Go function can return is the empty-buffer check at the top. -/
def readLabels (dec : List Nat → String) (buf : List Nat) :
    Except String (List (Nat × String) × Nat) :=
  if buf.length < 1 then .error "buffer too small for labels"
  else
    let t8 := buf.getD 0 0
    if t8 &&& 0x01 = 0 then
      if buf.length ≤ 1 then .ok ([], 1)
      else
        let t8b := buf.getD 1 0
        let length := t8 ||| (t8b <<< 8)
        .ok (readLabelsLoop dec buf 2 (buf.length + 1) 2 ((length : Int) - 2) [])
    else
      .ok (readLabelsLoop dec buf 1 (buf.length + 1) 1 ((t8 : Int) - 1) [])

set_option maxRecDepth 4000 in
/-- C2 (counterexample).  For the single-entry block whose encoded string
body has 126 bytes (so the serialized data is 128 bytes), the claim says
the emitted two-byte prefix is 0x02, 0x01 (value 2·128+2 = 258); the
encoder actually emits 0x02, 0x02 (value 4·128+2 = 514). -/
theorem claim_C2_counterexample :
    (writeLabels [(0x04, List.replicate 126 0x41)]).take 2 ≠ [0x02, 0x01] := by
  decide

/-- C2 (amended).  When the serialized entry data is D = 128 bytes, the
encoder switches to the two-byte length field and emits the prefix value
4·128+2 = 514 with the low bit cleared, i.e. the bytes 0x02, 0x02,
followed by the data (the counter semantics charge 2·n = 4 per data
byte, so the prefix value is 4·D + 2, not 2·D + 2). -/
theorem claim_C2 (entries : List (Nat × List Nat))
    (hD : (labelsData entries).length = 128) :
    writeLabels entries = 0x02 :: 0x02 :: labelsData entries := by
  simp only [writeLabels, hD]
  rfl

set_option maxRecDepth 4000 in
/-- C2 (witness).  The amended statement at the concrete single entry with
language code 04 and a 126-byte encoded body. -/
theorem claim_C2_witness :
    (labelsData [(0x04, List.replicate 126 0x41)]).length = 128 ∧
      writeLabels [(0x04, List.replicate 126 0x41)] =
        0x02 :: 0x02 :: labelsData [(0x04, List.replicate 126 0x41)] :=
  ⟨by decide, claim_C2 [(0x04, List.replicate 126 0x41)] (by decide)⟩

/-- C6 (counterexample).  Label decoding does not fail on malformed label
blocks.  First input: prefix 0x09 (counter 8) whose buffer ends before the
string's 0x00 terminator — the decoder returns the partial map with no
error.  Second input: two-byte prefix value 8 (counter 6, n = 2), where
reading the first string byte drives the counter to −2 (underflow) — again
the partial map is returned with no error. -/
theorem claim_C6_counterexample :
    readLabels asciiDec [0x09, 0x04, 0x41] = Except.ok ([(0x04, "A")], 3) ∧
      readLabels asciiDec [0x08, 0x00, 0x04, 0x41, 0x41, 0x00] =
        Except.ok ([(0x04, "A")], 4) :=
  ⟨rfl, rfl⟩

/-- C6 (amended).  The decoder returns a label map without error on every
nonempty buffer: counter underflow and a buffer that ends before a string
terminator silently stop parsing; the only error `readLabels` can return
is the empty-buffer check. -/
theorem claim_C6 (dec : List Nat → String) (buf : List Nat) (hne : buf ≠ []) :
    ∃ result, readLabels dec buf = Except.ok result := by
  have h1 : ¬ buf.length < 1 := by
    simp [Nat.lt_one_iff, List.length_eq_zero]
    exact hne
  simp only [readLabels]
  rw [if_neg h1]
  split_ifs <;> exact ⟨_, rfl⟩

/-- C6 (witness).  The amended statement at a concrete well-formed block
(language 04, body "A", exact counter). -/
theorem claim_C6_witness :
    ([0x05, 0x04, 0x41, 0x00] : List Nat) ≠ [] ∧
      ∃ result, readLabels asciiDec [0x05, 0x04, 0x41, 0x00] = Except.ok result :=
  ⟨by decide, claim_C6 asciiDec [0x05, 0x04, 0x41, 0x00] (by decide)⟩

/-! ## Codepage selection (C1 in the spec)

The text encoders/decoders themselves live in the external
golang.org/x/text charmap library; what the repository decides is which
charmap to hand the work to.  `setupEncoder` embeds `Writer.setupEncoder`
(src/unnamed/part_005, lines 189-205); `readerDecoderChoice` embeds the
decoder `switch` in `Reader.ReadHeader` (src/internal/binary/reader.go,
lines 298-309). -/

/-- The three encodings the code can select (`nil` for UTF-8 is `utf8`). -/
inductive EncodingChoice where
  | win1252
  | win1250
  | utf8
deriving DecidableEq

/-- The binary writer's encoder selection. -/
def setupEncoder (codePage : Nat) : EncodingChoice :=
  if codePage = 1252 then .win1252
  else if codePage = 1250 then .win1250
  else if codePage = 65001 then .utf8
  else .win1252

/-- The binary reader's decoder selection. -/
def readerDecoderChoice (codePage : Nat) : EncodingChoice :=
  if codePage = 1252 then .win1252
  else if codePage = 1250 then .win1250
  else if codePage = 65001 then .utf8
  else .win1252

/-- C7 (counterexample).  Codepages 437, 1251 and 1254 are not handled by
either codepage switch: both map them to Windows-1252, exactly as they map
a codepage that no spec lists (9999), so the transcoder cannot decode or
encode with those codepages. -/
theorem claim_C7_counterexample :
    setupEncoder 437 = EncodingChoice.win1252 ∧
      setupEncoder 1251 = EncodingChoice.win1252 ∧
      setupEncoder 1254 = EncodingChoice.win1252 ∧
      readerDecoderChoice 437 = EncodingChoice.win1252 ∧
      readerDecoderChoice 1251 = EncodingChoice.win1252 ∧
      readerDecoderChoice 1254 = EncodingChoice.win1252 ∧
      setupEncoder 437 = setupEncoder 9999 := by
  decide

/-- C7 (amended).  The codepage switches select Windows-1250 for 1250 and
UTF-8 for 65001; every other codepage — 1252 itself, but also 437, 1251,
1254 and all unknown values — is handled as Windows-1252. -/
theorem claim_C7 (cp : Nat) (h1 : cp ≠ 1250) (h2 : cp ≠ 65001) :
    setupEncoder cp = EncodingChoice.win1252 ∧
      readerDecoderChoice cp = EncodingChoice.win1252 ∧
      setupEncoder 1250 = EncodingChoice.win1250 ∧
      readerDecoderChoice 1250 = EncodingChoice.win1250 ∧
      setupEncoder 65001 = EncodingChoice.utf8 ∧
      readerDecoderChoice 65001 = EncodingChoice.utf8 := by
  refine ⟨?_, ?_, by decide, by decide, by decide, by decide⟩
  · unfold setupEncoder
    by_cases ha : cp = 1252
    · rw [if_pos ha]
    · rw [if_neg ha, if_neg h1, if_neg h2]
  · unfold readerDecoderChoice
    by_cases ha : cp = 1252
    · rw [if_pos ha]
    · rw [if_neg ha, if_neg h1, if_neg h2]

/-- C7 (witness).  The amended statement applied at codepage 437. -/
theorem claim_C7_witness :
    (437:Nat) ≠ 1250 ∧ (437:Nat) ≠ 65001 ∧
      (setupEncoder 437 = EncodingChoice.win1252 ∧
        readerDecoderChoice 437 = EncodingChoice.win1252 ∧
        setupEncoder 1250 = EncodingChoice.win1250 ∧
        readerDecoderChoice 1250 = EncodingChoice.win1250 ∧
        setupEncoder 65001 = EncodingChoice.utf8 ∧
        readerDecoderChoice 65001 = EncodingChoice.utf8) :=
  ⟨by decide, by decide, claim_C7 437 (by decide) (by decide)⟩

/-! ## Index-array entry size chosen by the writer (C7 in the spec)

`sectionModulo` embeds the modulo choice of `Writer.Write`
(src/unnamed/part_005, lines 98-115), written there identically for the
points, polylines and polygons sections: `modulo = 4`, bumped to 5 when
the section's data size exceeds 65535.  `writeArrayEntry` embeds
`Writer.writeArrayEntry` (lines 588-601), which always emits a 2-byte
type code followed by a 2-byte little-endian offset (truncating the
offset to `uint16`), whatever the modulo. -/

/-- The writer's per-section index-entry size. -/
def sectionModulo (dataSize : Nat) : Nat :=
  if dataSize > 65535 then 5 else 4

/-- One emitted index-array entry. -/
def writeArrayEntry (typeCode dataOffset : Nat) : List Nat :=
  [typeCode % 256, typeCode / 256 % 256,
    dataOffset % 256, dataOffset % 65536 / 256]

/-- C5 (counterexample).  For a section of data size 10 every record
offset fits in one byte, so the claim requires modulo = 3; the writer
chooses 4.  Moreover the emitted entry always carries a 2-byte offset
field, even when modulo = 5 is chosen for a large section (offset 70000
is truncated to 0x1170). -/
theorem claim_C5_counterexample :
    sectionModulo 10 ≠ 3 ∧ sectionModulo 10 = 4 ∧
      sectionModulo 70000 = 5 ∧
      writeArrayEntry 0x2F06 70000 = [0x06, 0x2F, 0x70, 0x11] := by
  decide

/-- C5 (amended).  The writer never chooses modulo 3: it chooses 4 unless
the section's serialized data size (not the largest recorded offset)
exceeds 65535, in which case it chooses 5; and every emitted index entry
is 4 bytes — 2-byte type code plus 2-byte truncated offset — regardless
of the chosen modulo. -/
theorem claim_C5 (dataSize : Nat) :
    sectionModulo dataSize ≠ 3 ∧
      (sectionModulo dataSize = 5 ↔ 65535 < dataSize) ∧
      (sectionModulo dataSize = 4 ↔ dataSize ≤ 65535) ∧
      ∀ typeCode dataOffset : Nat,
        (writeArrayEntry typeCode dataOffset).length = 4 := by
  unfold sectionModulo
  by_cases h : dataSize > 65535
  · rw [if_pos h]
    exact ⟨by omega, by omega, by omega, fun _ _ => rfl⟩
  · rw [if_neg h]
    exact ⟨by omega, by omega, by omega, fun _ _ => rfl⟩

/-! ## Catalog data model (C5 in the spec)

The structures mirror the `model` package.  The checked-in
internal/model/typ.go is an older revision (single `Icon`/`Pattern`
fields); the current readers and writers use the day/night field pairs
(`DayIcon`, `NightIcon`, `DayPattern`, `NightPattern`,
`DayBorderColor`, `NightBorderColor`), so the fields here follow those
uses.  Go's `Type` field is spelled `Typ` (`Type` is a Lean keyword).
Label maps (`map[string]string`, keyed by the `%02x`-formatted language
code) are association lists keyed by the code byte itself — `%02x` is
injective on bytes — with the decoded text as value. -/

/-- Color mode of a bitmap. -/
inductive ColorMode where
  | Monochrome
  | Color16
  | Color256
  | TrueColor
deriving DecidableEq

/-- Label font style. -/
inductive FontStyle where
  | FontNormal
  | FontSmall
  | FontLarge
  | FontNoLabel
deriving DecidableEq

/-- An RGBA color. -/
structure Color where
  R : Nat
  G : Nat
  B : Nat
  Alpha : Nat
deriving DecidableEq

/-- Go's `Color.IsZero`: the all-zero (uninitialised) color. -/
def Color.IsZero (c : Color) : Bool :=
  c.R == 0 && c.G == 0 && c.B == 0 && c.Alpha == 0

/-- A bitmap: dimensions, color mode, palette, and the byte-per-pixel
plane of palette indices. -/
structure Bitmap where
  Width : Nat
  Height : Nat
  ColorMode : ColorMode
  Palette : List Color
  Data : List Nat
deriving DecidableEq

/-- A point (POI) feature. -/
structure PointType where
  Typ : Nat
  SubType : Nat
  Labels : List (Nat × String)
  DayIcon : Option Bitmap
  NightIcon : Option Bitmap
  DayColor : Color
  NightColor : Color
  FontStyle : FontStyle
deriving DecidableEq

/-- A line feature. -/
structure LineType where
  Typ : Nat
  SubType : Nat
  Labels : List (Nat × String)
  LineWidth : Nat
  BorderWidth : Nat
  DayColor : Color
  NightColor : Color
  DayBorderColor : Color
  NightBorderColor : Color
  DayPattern : Option Bitmap
  NightPattern : Option Bitmap
deriving DecidableEq

/-- A polygon feature. -/
structure PolygonType where
  Typ : Nat
  SubType : Nat
  Labels : List (Nat × String)
  DayColor : Color
  NightColor : Color
  DayPattern : Option Bitmap
  NightPattern : Option Bitmap
deriving DecidableEq

/-- The TYP file header fields the codec carries. -/
structure Header where
  Version : Nat
  CodePage : Nat
  FID : Nat
  PID : Nat
deriving DecidableEq

/-- The parsed catalog. -/
structure TYPFile where
  Header : Header
  Points : List PointType
  Lines : List LineType
  Polygons : List PolygonType
deriving DecidableEq

/-- The catalog invariant of spec §3 for one bitmap: every pixel index is
below the palette length. -/
def bitmapPixelsInRange (b : Bitmap) : Bool :=
  b.Data.all fun v => v < b.Palette.length

/-! ## Text writer (C9 in the spec)

`writePointType` embeds the current text writer's `writePointType`
(src/unnamed/part_007, lines 313-359) and `writeXPM` embeds its
`writeXPM` (lines 469-576).  Go streams through `fmt.Fprintf`; the model
concatenates the same strings and returns the first error instead of a
partial stream.  Go compares the day and night bitmap pointers; value
equality of the optional bitmaps stands in for that. -/

/-- Lowercase minimal hex, Go's `%x` for a nonnegative integer. -/
def hexStr (n : Nat) : String :=
  String.mk (Nat.toDigits 16 n)

/-- Two-digit lowercase hex, Go's `%02x` for a byte. -/
def hex2 (n : Nat) : String :=
  if n < 16 then "0" ++ hexStr n else hexStr n

/-- The 93 single XPM palette characters: all printable ASCII except
space and the double quote, i.e. `!` (33) then codes 35 … 126.  (The Go
literal spells them out; its comment says 94 but the string has 93.) -/
def xpmChars : List Char :=
  Char.ofNat 33 :: (List.range 92).map fun i => Char.ofNat (35 + i)

/-- One XPM palette line: `"CODE c none"` for the transparent marker
(all components and alpha zero), otherwise `"CODE c #rrggbb"`. -/
def xpmColorLine (code : String) (c : Color) : String :=
  if c.R = 0 ∧ c.G = 0 ∧ c.B = 0 ∧ c.Alpha = 0 then
    "\"" ++ code ++ " c none\"\n"
  else
    "\"" ++ code ++ " c #" ++ hex2 c.R ++ hex2 c.G ++ hex2 c.B ++ "\"\n"

/-- The palette block of an XPM. -/
def xpmPaletteLines (palette : List Color) (codes : List String) : String :=
  String.join ((List.range palette.length).map fun i =>
    xpmColorLine (codes.getD i "") (palette.getD i ⟨0, 0, 0, 0⟩))

/-- The quoted pixel rows of an XPM, with the Go loops' bounds checks:
too little pixel data or a pixel index beyond the code table is an
error. -/
def xpmPixelLines (bmp : Bitmap) (codes : List String) :
    Except String String :=
  if bmp.Data.length < bmp.Width * bmp.Height then
    .error "bitmap data too short"
  else if (bmp.Data.take (bmp.Width * bmp.Height)).any fun v =>
      codes.length ≤ v then
    .error "pixel index out of range"
  else
    .ok (String.join ((List.range bmp.Height).map fun y =>
      "\"" ++ String.join ((List.range bmp.Width).map fun x =>
        codes.getD (bmp.Data.getD (y * bmp.Width + x) 0) "") ++ "\"\n"))

/-- The text writer's XPM emitter: one palette character per pixel for up
to 93 colors, two-character codes (first 255 of the ordered pairs) for 94
to 255 colors, an error beyond that. -/
def writeXPM (bmp : Bitmap) (tag : String) : Except String String :=
  if xpmChars.length < bmp.Palette.length then
    if 255 < bmp.Palette.length then
      .error "too many colors for XPM encoding"
    else
      let codes := ((xpmChars.map fun c1 => xpmChars.map fun c2 =>
        String.mk [c1, c2]).flatten).take 255
      match xpmPixelLines bmp codes with
      | .error e => .error e
      | .ok pixels =>
        .ok (tag ++ "=\"" ++ toString bmp.Width ++ " " ++ toString bmp.Height ++
          " " ++ toString bmp.Palette.length ++ " 2\"\n" ++
          xpmPaletteLines bmp.Palette codes ++ pixels)
  else
    let codes := xpmChars.map fun c => String.mk [c]
    match xpmPixelLines bmp codes with
    | .error e => .error e
    | .ok pixels =>
      .ok (tag ++ "=\"" ++ toString bmp.Width ++ " " ++ toString bmp.Height ++
        " " ++ toString bmp.Palette.length ++ " 1\"\n" ++
        xpmPaletteLines bmp.Palette codes ++ pixels)

/-- The text writer's `[_point]` section. -/
def writePointType (pt : PointType) : Except String String :=
  let head := "[_point]\n" ++
    (if pt.SubType ≠ 0 then
      "Type=0x" ++ hexStr pt.Typ ++ "\nSubType=0x" ++ hexStr pt.SubType ++ "\n"
    else
      "Type=0x" ++ hexStr pt.Typ ++ "\n") ++
    String.join (pt.Labels.map fun e =>
      "String1=0x" ++ hex2 e.1 ++ "," ++ e.2 ++ "\n") ++
    (if ¬ pt.DayColor.IsZero then
      "DayColor=#" ++ hex2 pt.DayColor.R ++ hex2 pt.DayColor.G ++
        hex2 pt.DayColor.B ++ "\n"
    else "") ++
    (if ¬ pt.NightColor.IsZero then
      "NightColor=#" ++ hex2 pt.NightColor.R ++ hex2 pt.NightColor.G ++
        hex2 pt.NightColor.B ++ "\n"
    else "")
  let dayEmitted : Except String String :=
    match pt.DayIcon with
    | none => .ok ""
    | some b => writeXPM b "DayXpm"
  match dayEmitted with
  | .error e => .error e
  | .ok dayStr =>
    let nightEmitted : Except String String :=
      match pt.NightIcon with
      | none => .ok ""
      | some b => if pt.NightIcon = pt.DayIcon then .ok "" else writeXPM b "NightXpm"
    match nightEmitted with
    | .error e => .error e
    | .ok nightStr => .ok (head ++ dayStr ++ nightStr ++ "[end]\n\n")

/-- C9.  The text form of the minimal point — type 0x2F06, subtype 0, a
single English (04) label "Trail Junction", no icon, opaque red day
color — is exactly the claimed section, with SubType omitted and the
section followed by one blank line. -/
theorem claim_C9 :
    writePointType
      (PointType.mk 0x2F06 0 [(0x04, "Trail Junction")] none none
        ⟨255, 0, 0, 255⟩ ⟨0, 0, 0, 0⟩ FontStyle.FontNormal) =
    Except.ok
      "[_point]\nType=0x2f06\nString1=0x04,Trail Junction\nDayColor=#ff0000\n[end]\n\n" := by
  rfl

/-! ## Binary reader (C6 in the spec)

The reader functions embed the methods of `Reader` in
src/internal/binary/reader.go.  `ReadAt` semantics: a read at offset `o`
into a buffer of size `s` yields the file bytes `o … o+s-1`; when the
file ends early the remaining buffer bytes keep their zero
initialisation and the call reports `io.EOF`.  Callers that slice the
buffer to the byte count (`buf = buf[:n]`) are modelled with
`readAtTrim`; `readArrayEntry`, which ignores the count and uses the
zero-padded buffer, with `readAtPad`.  `ReadHeader` reads a 256-byte
buffer without tolerating `io.EOF`, so any file shorter than 256 bytes
fails there.  String decoding is a call into the external charmap
library; the parse pipeline takes an `interp` function assigning each
selected `EncodingChoice` its byte-to-string action. -/

/-- ReadAt trimmed to the bytes actually present (`buf[:n]`). -/
def readAtTrim (file : List Nat) (offset size : Nat) : List Nat :=
  (file.drop offset).take size

/-- ReadAt keeping the zero-filled tail of the caller buffer. -/
def readAtPad (file : List Nat) (offset size : Nat) : List Nat :=
  let r := (file.drop offset).take size
  r ++ List.replicate (size - r.length) 0

/-- Little-endian 16-bit read. -/
def u16le (b0 b1 : Nat) : Nat := b0 + 256 * b1

/-- Little-endian 32-bit read. -/
def u32le (b0 b1 b2 b3 : Nat) : Nat :=
  b0 + 256 * b1 + 65536 * b2 + 16777216 * b3

/-- Go's `SectionInfo`. -/
structure SectionInfo where
  DataOffset : Nat
  DataLength : Nat
  ArrayOffset : Nat
  ArrayModulo : Nat
  ArraySize : Nat
deriving DecidableEq

/-- Go's `TYPHeader`: every field `ReadHeader` stores. -/
structure TYPHeaderInfo where
  Descriptor : Nat
  Version : Nat
  Year : Nat
  Month : Nat
  Day : Nat
  Hour : Nat
  Minutes : Nat
  Seconds : Nat
  CodePage : Nat
  PID : Nat
  FID : Nat
  Points : SectionInfo
  Polylines : SectionInfo
  Polygons : SectionInfo
  Order : SectionInfo
deriving DecidableEq

/-- Embeds `Reader.ReadHeader` (reader.go lines 184-319): fixed-offset
field extraction after the signature check, returning both the public
header and the section table. -/
def ReadHeader (file : List Nat) : Except String (Header × TYPHeaderInfo) :=
  if file.length < 256 then .error "read header bytes: EOF"
  else
    let b := fun i => file.getD i 0
    -- "GARMIN TYP" at offsets 0x02..0x0B
    if ¬ (b 0x02 = 71 ∧ b 0x03 = 65 ∧ b 0x04 = 82 ∧ b 0x05 = 77 ∧ b 0x06 = 73 ∧
        b 0x07 = 78 ∧ b 0x08 = 32 ∧ b 0x09 = 84 ∧ b 0x0A = 89 ∧ b 0x0B = 80) then
      .error "unrecognized TYP file format - missing GARMIN TYP signature"
    else
      let version := u16le (b 0x0C) (b 0x0D)
      let codePage := u16le (b 0x15) (b 0x16)
      let pid := u16le (b 0x2F) (b 0x30)
      let fid := u16le (b 0x31) (b 0x32)
      let info : TYPHeaderInfo :=
        ⟨u16le (b 0x00) (b 0x01), version,
          u16le (b 0x0E) (b 0x0F), b 0x10, b 0x11, b 0x12, b 0x13, b 0x14,
          codePage, pid, fid,
          ⟨u32le (b 0x17) (b 0x18) (b 0x19) (b 0x1A),
            u32le (b 0x1B) (b 0x1C) (b 0x1D) (b 0x1E),
            u32le (b 0x33) (b 0x34) (b 0x35) (b 0x36),
            u16le (b 0x37) (b 0x38),
            u32le (b 0x39) (b 0x3A) (b 0x3B) (b 0x3C)⟩,
          ⟨u32le (b 0x1F) (b 0x20) (b 0x21) (b 0x22),
            u32le (b 0x23) (b 0x24) (b 0x25) (b 0x26),
            u32le (b 0x3D) (b 0x3E) (b 0x3F) (b 0x40),
            u16le (b 0x41) (b 0x42),
            u32le (b 0x43) (b 0x44) (b 0x45) (b 0x46)⟩,
          ⟨u32le (b 0x27) (b 0x28) (b 0x29) (b 0x2A),
            u32le (b 0x2B) (b 0x2C) (b 0x2D) (b 0x2E),
            u32le (b 0x47) (b 0x48) (b 0x49) (b 0x4A),
            u16le (b 0x4B) (b 0x4C),
            u32le (b 0x4D) (b 0x4E) (b 0x4F) (b 0x50)⟩,
          ⟨0, 0,
            u32le (b 0x51) (b 0x52) (b 0x53) (b 0x54),
            u16le (b 0x55) (b 0x56),
            u32le (b 0x57) (b 0x58) (b 0x59) (b 0x5A)⟩⟩
      .ok (⟨version, codePage, fid, pid⟩, info)

/-- Embeds `Reader.readArrayEntry` (reader.go lines 397-425): 16-bit type
code, then a 1-, 2- or 3-byte little-endian offset selected by the
modulo. -/
def readArrayEntry (file : List Nat) (offset modulo : Nat) :
    Except String (Nat × Nat) :=
  let buf := readAtPad file offset 8
  let typeCode := u16le (buf.getD 0 0) (buf.getD 1 0)
  if modulo = 5 then
    .ok (typeCode, buf.getD 2 0 + 256 * buf.getD 3 0 + 65536 * buf.getD 4 0)
  else if modulo = 4 then
    .ok (typeCode, u16le (buf.getD 2 0) (buf.getD 3 0))
  else if modulo = 3 then
    .ok (typeCode, buf.getD 2 0)
  else
    .error ("unsupported array modulo: " ++ toString modulo)

/-- Embeds `Reader.readColorTable` (reader.go lines 640-661): `ncolors`
B,G,R byte triples, returned as opaque colors with the byte order
swapped to R,G,B, together with the bytes consumed. -/
def readColorTable (buf : List Nat) (pos ncolors : Nat) :
    Except String (List Color × Nat) :=
  if buf.length < pos + ncolors * 3 then
    .error "buffer too small for color table"
  else
    .ok ((List.range ncolors).map fun i =>
      ⟨buf.getD (pos + i * 3 + 2) 0, buf.getD (pos + i * 3 + 1) 0,
        buf.getD (pos + i * 3) 0, 255⟩, ncolors * 3)

/-- Embeds `Reader.calculateBPP` (reader.go lines 729-739). -/
def calculateBPP (ncolors : Nat) : Nat :=
  if ncolors ≤ 2 then 1
  else if ncolors ≤ 4 then 2
  else if ncolors ≤ 16 then 4
  else 8

/-- The color-mode switch `readPointData` applies to a bpp value
(2 falls to the default `Color256` branch, as in the Go switches). -/
def colorModeOfBPP (bpp : Nat) : ColorMode :=
  if bpp = 1 then .Monochrome
  else if bpp = 4 then .Color16
  else if bpp = 8 then .Color256
  else .Color256

/-- Error wrapping, Go's `fmt.Errorf("context: %w", err)`. -/
def wrapErr (pre : String) : Except String α → Except String α
  | .error e => .error (pre ++ e)
  | .ok x => .ok x

/-- Embeds `Reader.readPointData` (reader.go lines 445-638): header
bytes, day palette and bitmap, optional night palette and bitmap, labels
(a label-decode failure leaves the labels empty and continues), and the
optional text-color block. -/
def readPointData (dec : List Nat → String) (file : List Nat)
    (offset typ subtyp : Nat) : Except String PointType := do
  let buf := readAtTrim file offset 4096
  if buf.length < 5 then
    throw ("buffer too small: " ++ toString buf.length ++ " bytes")
  let flags := buf.getD 0 0
  let width := buf.getD 1 0
  let height := buf.getD 2 0
  let ncolors := buf.getD 3 0
  -- buf[4] is ctype, read and currently unused (TODO in the source)
  let hasLabels := flags &&& 0x04 ≠ 0
  let hasTextColors := flags &&& 0x08 ≠ 0
  let dayNightMode := flags &&& 0x03
  let (palette, pos) ←
    if 0 < ncolors then do
      let (p, br) ← wrapErr "read color table: " (readColorTable buf 5 ncolors)
      pure (p, 5 + br)
    else pure (([] : List Color), 5)
  let bpp := calculateBPP ncolors
  let (dayIcon, pos) ←
    if 0 < width ∧ 0 < height then do
      let (data, br) ← wrapErr "read bitmap: " (readBitmap buf pos width height bpp)
      pure (some (Bitmap.mk width height (colorModeOfBPP bpp) palette data),
        pos + br)
    else pure ((none : Option Bitmap), pos)
  let (nightIcon, pos) ←
    if dayNightMode = 0x03 then do
      if buf.length < pos + 2 then
        throw "buffer too small for night bitmap header"
      let nightNcolors := buf.getD pos 0
      -- buf[pos+1] is the night ctype, read and unused
      let pos := pos + 2
      let (nightPalette, pos) ←
        if 0 < nightNcolors then do
          let (p, br) ← wrapErr "read night color table: " (readColorTable buf pos nightNcolors)
          pure (p, pos + br)
        else pure (([] : List Color), pos)
      if 0 < width ∧ 0 < height then do
        let nightBpp := calculateBPP nightNcolors
        let (data, br) ← wrapErr "read night bitmap: " (readBitmap buf pos width height nightBpp)
        pure (some (Bitmap.mk width height (colorModeOfBPP nightBpp)
          nightPalette data), pos + br)
      else pure ((none : Option Bitmap), pos)
    else pure ((none : Option Bitmap), pos)
  let (labels, pos) ←
    if hasLabels ∧ pos < buf.length then
      match readLabels dec (buf.drop pos) with
      | .ok (ls, br) => pure (ls, pos + br)
      | .error _ => pure (([] : List (Nat × String)), pos)
    else pure (([] : List (Nat × String)), pos)
  if hasTextColors ∧ pos < buf.length then do
    let textColorFlags := buf.getD pos 0
    let pos := pos + 1
    let labelType := textColorFlags &&& 0x07
    let fontStyle :=
      if labelType = 0 then FontStyle.FontNormal
      else if labelType = 1 then FontStyle.FontNoLabel
      else if labelType = 2 then FontStyle.FontSmall
      else if labelType = 3 then FontStyle.FontNormal
      else if labelType = 4 then FontStyle.FontLarge
      else FontStyle.FontNormal
    let (dayColor, pos) ←
      if textColorFlags &&& 0x08 ≠ 0 then do
        if buf.length < pos + 3 then
          throw "buffer too small for day text color"
        pure ((⟨buf.getD (pos + 2) 0, buf.getD (pos + 1) 0,
          buf.getD pos 0, 255⟩ : Color), pos + 3)
      else pure ((⟨0, 0, 0, 0⟩ : Color), pos)
    let (nightColor, _) ←
      if textColorFlags &&& 0x10 ≠ 0 then do
        if buf.length < pos + 3 then
          throw "buffer too small for night text color"
        pure ((⟨buf.getD (pos + 2) 0, buf.getD (pos + 1) 0,
          buf.getD pos 0, 255⟩ : Color), pos + 3)
      else pure ((⟨0, 0, 0, 0⟩ : Color), pos)
    return PointType.mk typ subtyp labels dayIcon nightIcon dayColor
      nightColor fontStyle
  else
    return PointType.mk typ subtyp labels dayIcon nightIcon ⟨0, 0, 0, 0⟩
      ⟨0, 0, 0, 0⟩ FontStyle.FontNormal

/-- The B,G,R byte triple at `pos` of `buf` as an opaque color, the form
every color field of the line and polygon readers takes. -/
def bgrAt (buf : List Nat) (pos : Nat) : Color :=
  ⟨buf.getD (pos + 2) 0, buf.getD (pos + 1) 0, buf.getD pos 0, 255⟩

/-- The transparent palette slot the line/polygon readers synthesize. -/
def transparentColor : Color := ⟨255, 255, 255, 0⟩

/-- Embeds `Reader.readPolylineData` (reader.go lines 948-1288): the
(color-type, rows) byte, the flags byte, one of the seven color-type
field layouts, then labels.  The text-color branch of the Go code is an
empty TODO and reads nothing. -/
def readPolylineData (dec : List Nat → String) (file : List Nat)
    (offset typ subtyp : Nat) : Except String LineType := do
  let buf := readAtTrim file offset 4096
  if buf.length < 2 then
    throw ("buffer too small: " ++ toString buf.length ++ " bytes")
  let ctypRows := buf.getD 0 0
  let flags := buf.getD 1 0
  let ctyp := ctypRows &&& 0x07
  let rows := ctypRows >>> 3
  let hasLabels := flags &&& 0x01 ≠ 0
  -- flags bit 2 (text colors) is read but its handling is an empty TODO
  let pos := 2
  let zc : Color := ⟨0, 0, 0, 0⟩
  let (lt, pos) ←
    if ctyp = 0x00 then
      if 0 < rows then do
        if buf.length < pos + 6 then throw "buffer too small for pattern colors"
        let palette := [bgrAt buf (pos + 3), bgrAt buf pos]
        let pos := pos + 6
        let (data, br) ← wrapErr "read pattern bitmap: " (readBitmap buf pos 32 rows 1)
        let bmp := Bitmap.mk 32 rows .Monochrome palette data
        pure (LineType.mk typ subtyp [] 0 0 zc zc zc zc (some bmp) (some bmp), pos + br)
      else do
        if buf.length < pos + 8 then throw "buffer too small for line colors"
        let day := bgrAt buf pos
        let dayBorder := bgrAt buf (pos + 3)
        pure (LineType.mk typ subtyp [] (buf.getD (pos + 6) 0) (buf.getD (pos + 7) 0)
          day day dayBorder dayBorder none none, pos + 8)
    else if ctyp = 0x01 then
      if 0 < rows then do
        if buf.length < pos + 12 then throw "buffer too small for day/night pattern colors"
        let dayPalette := [bgrAt buf (pos + 3), bgrAt buf pos]
        let nightPalette := [bgrAt buf (pos + 9), bgrAt buf (pos + 6)]
        let pos := pos + 12
        let (data, br) ← wrapErr "read pattern bitmap: " (readBitmap buf pos 32 rows 1)
        pure (LineType.mk typ subtyp [] 0 0 zc zc zc zc
          (some (Bitmap.mk 32 rows .Monochrome dayPalette data))
          (some (Bitmap.mk 32 rows .Monochrome nightPalette data)), pos + br)
      else do
        if buf.length < pos + 14 then throw "buffer too small for day/night colors"
        pure (LineType.mk typ subtyp [] (buf.getD (pos + 12) 0) (buf.getD (pos + 13) 0)
          (bgrAt buf pos) (bgrAt buf (pos + 6)) (bgrAt buf (pos + 3)) (bgrAt buf (pos + 9))
          none none, pos + 14)
    else if ctyp = 0x03 then
      if 0 < rows then do
        if buf.length < pos + 9 then throw "buffer too small for transparent pattern colors"
        let dayPalette := [transparentColor, bgrAt buf pos]
        let nightPalette := [bgrAt buf (pos + 6), bgrAt buf (pos + 3)]
        let pos := pos + 9
        let (data, br) ← wrapErr "read pattern bitmap: " (readBitmap buf pos 32 rows 1)
        pure (LineType.mk typ subtyp [] 0 0 zc zc zc zc
          (some (Bitmap.mk 32 rows .Monochrome dayPalette data))
          (some (Bitmap.mk 32 rows .Monochrome nightPalette data)), pos + br)
      else do
        if buf.length < pos + 13 then throw "buffer too small for colors"
        pure (LineType.mk typ subtyp [] (buf.getD (pos + 9) 0) (buf.getD (pos + 10) 0)
          (bgrAt buf pos) (bgrAt buf (pos + 3)) zc (bgrAt buf (pos + 6))
          none none, pos + 11)
    else if ctyp = 0x05 then
      if 0 < rows then do
        if buf.length < pos + 9 then throw "buffer too small for pattern colors"
        let dayPalette := [bgrAt buf (pos + 3), bgrAt buf pos]
        let nightPalette := [transparentColor, bgrAt buf (pos + 6)]
        let pos := pos + 9
        let (data, br) ← wrapErr "read pattern bitmap: " (readBitmap buf pos 32 rows 1)
        pure (LineType.mk typ subtyp [] 0 0 zc zc zc zc
          (some (Bitmap.mk 32 rows .Monochrome dayPalette data))
          (some (Bitmap.mk 32 rows .Monochrome nightPalette data)), pos + br)
      else do
        if buf.length < pos + 10 then throw "buffer too small for colors"
        pure (LineType.mk typ subtyp [] (buf.getD (pos + 9) 0) 0
          (bgrAt buf pos) (bgrAt buf (pos + 6)) (bgrAt buf (pos + 3)) zc
          none none, pos + 10)
    else if ctyp = 0x06 then
      if 0 < rows then do
        if buf.length < pos + 3 then throw "buffer too small for pattern color"
        let palette := [transparentColor, bgrAt buf pos]
        let pos := pos + 3
        let (data, br) ← wrapErr "read pattern bitmap: " (readBitmap buf pos 32 rows 1)
        let bmp := Bitmap.mk 32 rows .Monochrome palette data
        pure (LineType.mk typ subtyp [] 0 0 zc zc zc zc (some bmp) (some bmp), pos + br)
      else do
        if buf.length < pos + 4 then throw "buffer too small for color"
        let day := bgrAt buf pos
        pure (LineType.mk typ subtyp [] (buf.getD (pos + 3) 0) 0
          day day zc zc none none, pos + 4)
    else if ctyp = 0x07 then
      if 0 < rows then do
        if buf.length < pos + 6 then throw "buffer too small for day/night pattern colors"
        let dayPalette := [transparentColor, bgrAt buf pos]
        let nightPalette := [transparentColor, bgrAt buf (pos + 3)]
        let pos := pos + 6
        let (data, br) ← wrapErr "read pattern bitmap: " (readBitmap buf pos 32 rows 1)
        pure (LineType.mk typ subtyp [] 0 0 zc zc zc zc
          (some (Bitmap.mk 32 rows .Monochrome dayPalette data))
          (some (Bitmap.mk 32 rows .Monochrome nightPalette data)), pos + br)
      else do
        if buf.length < pos + 7 then throw "buffer too small for day/night colors"
        pure (LineType.mk typ subtyp [] (buf.getD (pos + 6) 0) 0
          (bgrAt buf pos) (bgrAt buf (pos + 3)) zc zc none none, pos + 7)
    else
      throw ("unsupported polyline color type: 0x" ++ hex2 ctyp)
  let (labels, _) ←
    if hasLabels ∧ pos < buf.length then
      match readLabels dec (buf.drop pos) with
      | .ok (ls, br) => pure (ls, pos + br)
      | .error _ => pure (([] : List (Nat × String)), pos)
    else pure (([] : List (Nat × String)), pos)
  return LineType.mk lt.Typ lt.SubType labels lt.LineWidth lt.BorderWidth
    lt.DayColor lt.NightColor lt.DayBorderColor lt.NightBorderColor
    lt.DayPattern lt.NightPattern

/-- Embeds `Reader.readPolygonData` (reader.go lines 1420-1666): the
packed flags byte, one of the eight color-type layouts (patterns are
32×32 at 1 bpp), then labels.  The text-color branch is an empty TODO. -/
def readPolygonData (dec : List Nat → String) (file : List Nat)
    (offset typ subtyp : Nat) : Except String PolygonType := do
  let buf := readAtTrim file offset 4096
  if buf.length < 1 then
    throw ("buffer too small: " ++ toString buf.length ++ " bytes")
  let flags := buf.getD 0 0
  let ctyp := flags &&& 0x0F
  let hasLabels := flags &&& 0x10 ≠ 0
  -- flags bit 5 (text colors) is read but its handling is an empty TODO
  let pos := 1
  let zc : Color := ⟨0, 0, 0, 0⟩
  let (poly, pos) ←
    if ctyp = 0x01 then do
      if buf.length < pos + 12 then throw "buffer too small for colors"
      -- border colors at pos+6 and pos+9 are read and discarded by the source
      pure (PolygonType.mk typ subtyp [] (bgrAt buf pos) (bgrAt buf (pos + 3))
        none none, pos + 12)
    else if ctyp = 0x06 then do
      if buf.length < pos + 3 then throw "buffer too small for color"
      let color := bgrAt buf pos
      pure (PolygonType.mk typ subtyp [] color color none none, pos + 3)
    else if ctyp = 0x07 then do
      if buf.length < pos + 6 then throw "buffer too small for day/night colors"
      pure (PolygonType.mk typ subtyp [] (bgrAt buf pos) (bgrAt buf (pos + 3))
        none none, pos + 6)
    else if ctyp = 0x08 then do
      if buf.length < pos + 6 then throw "buffer too small for pattern colors"
      let palette := [bgrAt buf (pos + 3), bgrAt buf pos]
      let pos := pos + 6
      let (data, br) ← wrapErr "read pattern: " (readBitmap buf pos 32 32 1)
      let bmp := Bitmap.mk 32 32 .Monochrome palette data
      pure (PolygonType.mk typ subtyp [] zc zc (some bmp) (some bmp), pos + br)
    else if ctyp = 0x09 then do
      if buf.length < pos + 12 then throw "buffer too small for day/night pattern colors"
      let dayPalette := [bgrAt buf (pos + 3), bgrAt buf pos]
      let nightPalette := [bgrAt buf (pos + 9), bgrAt buf (pos + 6)]
      let pos := pos + 12
      let (data, br) ← wrapErr "read pattern: " (readBitmap buf pos 32 32 1)
      pure (PolygonType.mk typ subtyp [] zc zc
        (some (Bitmap.mk 32 32 .Monochrome dayPalette data))
        (some (Bitmap.mk 32 32 .Monochrome nightPalette data)), pos + br)
    else if ctyp = 0x0B then do
      if buf.length < pos + 9 then throw "buffer too small for pattern colors"
      let dayPalette := [transparentColor, bgrAt buf pos]
      let nightPalette := [bgrAt buf (pos + 6), bgrAt buf (pos + 3)]
      let pos := pos + 9
      let (data, br) ← wrapErr "read pattern: " (readBitmap buf pos 32 32 1)
      pure (PolygonType.mk typ subtyp [] zc zc
        (some (Bitmap.mk 32 32 .Monochrome dayPalette data))
        (some (Bitmap.mk 32 32 .Monochrome nightPalette data)), pos + br)
    else if ctyp = 0x0D then do
      if buf.length < pos + 9 then throw "buffer too small for pattern colors"
      let dayPalette := [bgrAt buf (pos + 3), bgrAt buf pos]
      let nightPalette := [transparentColor, bgrAt buf (pos + 6)]
      let pos := pos + 9
      let (data, br) ← wrapErr "read pattern: " (readBitmap buf pos 32 32 1)
      pure (PolygonType.mk typ subtyp [] zc zc
        (some (Bitmap.mk 32 32 .Monochrome dayPalette data))
        (some (Bitmap.mk 32 32 .Monochrome nightPalette data)), pos + br)
    else if ctyp = 0x0E then do
      if buf.length < pos + 3 then throw "buffer too small for pattern color"
      let palette := [transparentColor, bgrAt buf pos]
      let pos := pos + 3
      let (data, br) ← wrapErr "read pattern: " (readBitmap buf pos 32 32 1)
      let bmp := Bitmap.mk 32 32 .Monochrome palette data
      pure (PolygonType.mk typ subtyp [] zc zc (some bmp) (some bmp), pos + br)
    else
      throw ("unsupported polygon color type: 0x" ++ hex2 ctyp)
  let (labels, _) ←
    if hasLabels ∧ pos < buf.length then
      match readLabels dec (buf.drop pos) with
      | .ok (ls, br) => pure (ls, pos + br)
      | .error _ => pure (([] : List (Nat × String)), pos)
    else pure (([] : List (Nat × String)), pos)
  return PolygonType.mk poly.Typ poly.SubType labels poly.DayColor
    poly.NightColor poly.DayPattern poly.NightPattern

/-- The index loop shared by the three section readers: reads `count`
records starting at array index `i`, aborting on the first failure
exactly as the Go `for` loops return their errors. -/
def readEntriesFrom (read1 : Nat → Except String α) :
    Nat → Nat → Except String (List α)
  | 0, _ => .ok []
  | c + 1, i => do
    let x ← read1 i
    let rest ← readEntriesFrom read1 c (i + 1)
    pure (x :: rest)

/-- Embeds `Reader.ReadPointTypes` (reader.go lines 364-395). -/
def ReadPointTypes (dec : List Nat → String) (file : List Nat)
    (sec : SectionInfo) : Except String (List PointType) :=
  if sec.ArrayModulo = 0 ∨ sec.ArraySize % sec.ArrayModulo ≠ 0 then
    .ok []
  else
    readEntriesFrom (fun i => do
      let e ← wrapErr ("read array entry " ++ toString i ++ ": ")
        (readArrayEntry file (sec.ArrayOffset + i * sec.ArrayModulo)
          sec.ArrayModulo)
      let td := decodeTypeSubtype e.1
      wrapErr ("read point data at offset 0x" ++ hexStr (sec.DataOffset + e.2) ++ ": ")
        (readPointData dec file (sec.DataOffset + e.2) td.1 td.2))
      (sec.ArraySize / sec.ArrayModulo) 0

/-- Embeds `Reader.ReadLineTypes` (reader.go lines 1290-1320). -/
def ReadLineTypes (dec : List Nat → String) (file : List Nat)
    (sec : SectionInfo) : Except String (List LineType) :=
  if sec.ArrayModulo = 0 ∨ sec.ArraySize % sec.ArrayModulo ≠ 0 then
    .ok []
  else
    readEntriesFrom (fun i => do
      let e ← wrapErr ("read array entry " ++ toString i ++ ": ")
        (readArrayEntry file (sec.ArrayOffset + i * sec.ArrayModulo)
          sec.ArrayModulo)
      let td := decodeTypeSubtype e.1
      wrapErr ("read polyline data at offset 0x" ++ hexStr (sec.DataOffset + e.2) ++ ": ")
        (readPolylineData dec file (sec.DataOffset + e.2) td.1 td.2))
      (sec.ArraySize / sec.ArrayModulo) 0

/-- Embeds `Reader.ReadPolygonTypes` (reader.go lines 1668-1698). -/
def ReadPolygonTypes (dec : List Nat → String) (file : List Nat)
    (sec : SectionInfo) : Except String (List PolygonType) :=
  if sec.ArrayModulo = 0 ∨ sec.ArraySize % sec.ArrayModulo ≠ 0 then
    .ok []
  else
    readEntriesFrom (fun i => do
      let e ← wrapErr ("read array entry " ++ toString i ++ ": ")
        (readArrayEntry file (sec.ArrayOffset + i * sec.ArrayModulo)
          sec.ArrayModulo)
      let td := decodeTypeSubtype e.1
      wrapErr ("read polygon data at offset 0x" ++ hexStr (sec.DataOffset + e.2) ++ ": ")
        (readPolygonData dec file (sec.DataOffset + e.2) td.1 td.2))
      (sec.ArraySize / sec.ArrayModulo) 0

/-- Embeds `Reader.Parse` (reader.go lines 31-70): header, then the three
feature sections when their index arrays are nonempty; every error is
fatal to the whole parse.  `interp` supplies the byte-to-string action of
the external text decoders selected by the header codepage. -/
def Parse (interp : EncodingChoice → List Nat → String) (file : List Nat) :
    Except String TYPFile :=
  match ReadHeader file with
  | .error e => .error ("read header: " ++ e)
  | .ok (header, info) =>
    let dec := interp (readerDecoderChoice header.CodePage)
    match (if 0 < info.Points.ArraySize then
        wrapErr "read point types: " (ReadPointTypes dec file info.Points)
      else .ok []) with
    | .error e => .error e
    | .ok points =>
      match (if 0 < info.Polylines.ArraySize then
          wrapErr "read line types: " (ReadLineTypes dec file info.Polylines)
        else .ok []) with
      | .error e => .error e
      | .ok lineTypes =>
        match (if 0 < info.Polygons.ArraySize then
            wrapErr "read polygon types: " (ReadPolygonTypes dec file info.Polygons)
          else .ok []) with
        | .error e => .error e
        | .ok polygons => .ok (TYPFile.mk header points lineTypes polygons)

/-- A 256-byte test file: valid header (codepage 1252), a points index
array at 0x5B with one modulo-4 entry (type word 0x2F06, record offset
0), and a points data section placed at offset 0x100 — one byte past the
end of the file, so reading the single point record finds no bytes. -/
def cex3File : List Nat := [
  91, 0, 71, 65, 82, 77, 73, 78, 32, 84, 89, 80, 1, 0, 0, 0,
  0, 0, 0, 0, 0, 228, 4, 0, 1, 0, 0, 0, 0, 0, 0, 0,
  0, 0, 0, 0, 0, 0, 0, 0, 0, 0, 0, 0, 0, 0, 0, 0,
  0, 0, 0, 91, 0, 0, 0, 4, 0, 4, 0, 0, 0, 0, 0, 0,
  0, 0, 0, 0, 0, 0, 0, 0, 0, 0, 0, 0, 0, 0, 0, 0,
  0, 0, 0, 0, 0, 0, 0, 0, 0, 0, 0, 6, 47, 0, 0, 0,
  0, 0, 0, 0, 0, 0, 0, 0, 0, 0, 0, 0, 0, 0, 0, 0,
  0, 0, 0, 0, 0, 0, 0, 0, 0, 0, 0, 0, 0, 0, 0, 0,
  0, 0, 0, 0, 0, 0, 0, 0, 0, 0, 0, 0, 0, 0, 0, 0,
  0, 0, 0, 0, 0, 0, 0, 0, 0, 0, 0, 0, 0, 0, 0, 0,
  0, 0, 0, 0, 0, 0, 0, 0, 0, 0, 0, 0, 0, 0, 0, 0,
  0, 0, 0, 0, 0, 0, 0, 0, 0, 0, 0, 0, 0, 0, 0, 0,
  0, 0, 0, 0, 0, 0, 0, 0, 0, 0, 0, 0, 0, 0, 0, 0,
  0, 0, 0, 0, 0, 0, 0, 0, 0, 0, 0, 0, 0, 0, 0, 0,
  0, 0, 0, 0, 0, 0, 0, 0, 0, 0, 0, 0, 0, 0, 0, 0,
  0, 0, 0, 0, 0, 0, 0, 0, 0, 0, 0, 0, 0, 0, 0, 0]

/-- The section table `ReadHeader` extracts from `cex3File`. -/
def cex3Info : TYPHeaderInfo :=
  ⟨91, 1, 0, 0, 0, 0, 0, 0, 1252, 0, 0,
    ⟨256, 0, 91, 4, 4⟩, ⟨0, 0, 0, 0, 0⟩, ⟨0, 0, 0, 0, 0⟩, ⟨0, 0, 0, 0, 0⟩⟩

set_option maxRecDepth 100000 in
/-- C3 (counterexample).  An out-of-range read while parsing one feature
record does not abort only that record: on `cex3File` (valid header, one
point record placed past the end of the file), `Parse` returns an error
and no catalog at all. -/
theorem claim_C3_counterexample :
    Parse (fun _ => asciiDec) cex3File =
      Except.error
        "read point types: read point data at offset 0x100: buffer too small: 0 bytes" :=
  rfl

/-- C3 (amended).  A record-level failure is fatal to the whole file:
whenever the header parses, the points index array is nonempty and
`ReadPointTypes` fails on some record, `Parse` returns that error
(wrapped) instead of a catalog. -/
theorem claim_C3 (interp : EncodingChoice → List Nat → String)
    (file : List Nat) (hdr : Header) (info : TYPHeaderInfo) (e : String)
    (hhdr : ReadHeader file = Except.ok (hdr, info))
    (hpts : 0 < info.Points.ArraySize)
    (herr : ReadPointTypes (interp (readerDecoderChoice hdr.CodePage)) file
      info.Points = Except.error e) :
    Parse interp file = Except.error ("read point types: " ++ e) := by
  simp only [Parse, hhdr]
  rw [if_pos hpts, herr]
  rfl

set_option maxRecDepth 100000 in
/-- C3 (witness).  The amended statement instantiated on `cex3File`. -/
theorem claim_C3_witness :
    ReadHeader cex3File = Except.ok (⟨1, 1252, 0, 0⟩, cex3Info) ∧
      0 < cex3Info.Points.ArraySize ∧
      ReadPointTypes ((fun _ => asciiDec) (readerDecoderChoice 1252)) cex3File
        cex3Info.Points =
        Except.error "read point data at offset 0x100: buffer too small: 0 bytes" ∧
      Parse (fun _ => asciiDec) cex3File =
        Except.error ("read point types: " ++
          "read point data at offset 0x100: buffer too small: 0 bytes") :=
  ⟨rfl, by decide,
    rfl,
    claim_C3 (fun _ => asciiDec) cex3File ⟨1, 1252, 0, 0⟩ cex3Info
      "read point data at offset 0x100: buffer too small: 0 bytes" rfl (by decide) rfl⟩

/-- A 256-byte test file: valid header, one point record at offset 0x5F
with flags 0x01, a 1×1 icon, a one-color palette (ncolors = 1) and the
single packed pixel byte 0x80, so the unpacked pixel index is 1 while
the palette length is 1. -/
def cex8File : List Nat := [
  91, 0, 71, 65, 82, 77, 73, 78, 32, 84, 89, 80, 1, 0, 0, 0,
  0, 0, 0, 0, 0, 228, 4, 95, 0, 0, 0, 9, 0, 0, 0, 0,
  0, 0, 0, 0, 0, 0, 0, 0, 0, 0, 0, 0, 0, 0, 0, 0,
  0, 0, 0, 91, 0, 0, 0, 4, 0, 4, 0, 0, 0, 0, 0, 0,
  0, 0, 0, 0, 0, 0, 0, 0, 0, 0, 0, 0, 0, 0, 0, 0,
  0, 0, 0, 0, 0, 0, 0, 0, 0, 0, 0, 6, 47, 0, 0, 1,
  1, 1, 1, 16, 0, 0, 255, 128, 0, 0, 0, 0, 0, 0, 0, 0,
  0, 0, 0, 0, 0, 0, 0, 0, 0, 0, 0, 0, 0, 0, 0, 0,
  0, 0, 0, 0, 0, 0, 0, 0, 0, 0, 0, 0, 0, 0, 0, 0,
  0, 0, 0, 0, 0, 0, 0, 0, 0, 0, 0, 0, 0, 0, 0, 0,
  0, 0, 0, 0, 0, 0, 0, 0, 0, 0, 0, 0, 0, 0, 0, 0,
  0, 0, 0, 0, 0, 0, 0, 0, 0, 0, 0, 0, 0, 0, 0, 0,
  0, 0, 0, 0, 0, 0, 0, 0, 0, 0, 0, 0, 0, 0, 0, 0,
  0, 0, 0, 0, 0, 0, 0, 0, 0, 0, 0, 0, 0, 0, 0, 0,
  0, 0, 0, 0, 0, 0, 0, 0, 0, 0, 0, 0, 0, 0, 0, 0,
  0, 0, 0, 0, 0, 0, 0, 0, 0, 0, 0, 0, 0, 0, 0, 0]

set_option maxRecDepth 100000 in
/-- C8 (counterexample).  `Parse` accepts `cex8File` and the resulting
catalog's single point carries a day icon whose pixel plane is `[1]`
with a palette of length 1 — the claimed invariant
"pixel index < palette length" is violated by the reader's own output. -/
theorem claim_C8_counterexample :
    (Parse (fun _ => asciiDec) cex8File).map
      (fun t => t.Points.map fun p => p.DayIcon.map bitmapPixelsInRange) =
    Except.ok [some false] :=
  rfl

end TypConv
